import Mathlib

/-!
Verification development for the qredisclient `Connection` core
(src/qredisclient/connection.cpp).  The stateful, callback-driven code is
shallowly embedded as pure functions: the server/transporter side is an
explicit environment (lists of replies or per-node outcomes) and every
observable action (signal emission, command enqueue, user callback) becomes
an element of an event list.  Definitions follow the source; the few pieces
whose code lives outside connection.cpp (Response predicates, ScanCommand
validation, default arguments from headers, Qt container conversions) are
modelled from the spec and marked as such in their doc comments.
-/

namespace RedisClient

/-! ## Basic string machinery (Qt string helpers used by the source) -/

/-- Is `c` an ASCII decimal digit? -/
def isDigitCh (c : Char) : Bool := '0' ≤ c && c ≤ '9'

/-- ASCII lowercasing (`QString::toLower` on the names this code
compares). -/
def toLowerQ (s : String) : String := ⟨s.data.map Char.toLower⟩

/-- Value of a digit run, most significant first, starting from `acc`. -/
def digitsVal (acc : Nat) : List Char → Nat
  | [] => acc
  | c :: cs => digitsVal (acc * 10 + (c.toNat - 48)) cs

/-- All characters are ASCII digits. -/
def allDigits (l : List Char) : Bool := l.all isDigitCh

/-- Split a character list into its maximal leading digit run and the rest. -/
def takeDigits : List Char → List Char × List Char
  | [] => ([], [])
  | c :: cs =>
    if isDigitCh c then
      let p := takeDigits cs
      (c :: p.1, p.2)
    else ([], c :: cs)

/-- Does `pat` occur as a prefix of `l`? -/
def listStarts : List Char → List Char → Bool
  | [], _ => true
  | _ :: _, [] => false
  | a :: as, b :: bs => a == b && listStarts as bs

/-- Does `pat` occur as a contiguous sublist of `l`? -/
def listHasSub (pat : List Char) : List Char → Bool
  | [] => listStarts pat []
  | c :: cs => listStarts pat (c :: cs) || listHasSub pat cs

/-- `QString::contains`: substring test. -/
def strContainsSub (s pat : String) : Bool := listHasSub pat.data s.data

/-- Parse a whole string as an unsigned decimal integer (used for SCAN
cursors). -/
def parseUNat (s : String) : Option Nat :=
  if s.data ≠ [] && allDigits s.data then some (digitsVal 0 s.data) else none

/-- `QString::toInt`: optional sign, all-digit body, 32-bit signed range;
returns 0 on any failure (including overflow), as Qt does. -/
def toIntQ (s : String) : Int :=
  let core : Option Int :=
    match s.data with
    | [] => none
    | '-' :: ds => if ds ≠ [] && allDigits ds then some (-(digitsVal 0 ds : Int)) else none
    | '+' :: ds => if ds ≠ [] && allDigits ds then some ((digitsVal 0 ds : Int)) else none
    | ds => if allDigits ds then some ((digitsVal 0 ds : Int)) else none
  match core with
  | none => 0
  | some v => if v < -2147483648 || 2147483647 < v then 0 else v

/-- `QString::toInt` on a captured digit run (no sign): 32-bit range check,
0 on overflow. -/
def capToInt (ds : List Char) : Nat :=
  if digitsVal 0 ds ≤ 2147483647 then digitsVal 0 ds else 0

/-! ## Response value tree -/

/-- Modelled from the spec (§3 Response; response.cpp is not under src/):
the parsed reply is a tagged value tree
`null | integer | status-string | error-string | bulk-bytes | array`. -/
inductive RValue where
  | nil
  | int (i : Int)
  | status (s : String)
  | err (s : String)
  | bulk (s : String)
  | arr (xs : List RValue)
deriving Repr

/-- `Response::isErrorMessage`: the reply is an error string. -/
def RValue.isErrorMessage : RValue → Bool
  | .err _ => true
  | _ => false

/-- `Response::isArray`. -/
def RValue.isArray : RValue → Bool
  | .arr _ => true
  | _ => false

/-- Modelled from the spec (§3): `isDisabledCommandErrorMessage` holds for
error text matching "unknown command" or a server-specific "command
disabled" pattern. -/
def RValue.isDisabledCommandErrorMessage : RValue → Bool
  | .err s => strContainsSub s "unknown command" || strContainsSub s "command disabled"
  | _ => false

/-- Is the value a bulk string? -/
def RValue.isBulk : RValue → Bool
  | .bulk _ => true
  | _ => false

/-- The string content of a bulk element (empty for anything else). -/
def RValue.bulkStr : RValue → String
  | .bulk s => s
  | _ => ""

/-- Modelled from the spec: the SCAN cursor element parses as an unsigned
integer (it arrives as a bulk string on the wire). -/
def scanCursorOf : RValue → Option Nat
  | .bulk s => parseUNat s
  | _ => none

/-- Modelled from the spec (§3): a valid SCAN response is an array of
length 2 whose first element parses as an unsigned integer cursor and whose
second element is an array of bulk strings. -/
def RValue.isValidScanResponse : RValue → Bool
  | .arr [c, .arr items] => (scanCursorOf c).isSome && items.all RValue.isBulk
  | _ => false

/-- `Response::getCursor`: the parsed cursor of a SCAN response (0 when the
shape is not a SCAN response). -/
def RValue.getCursor : RValue → Nat
  | .arr (c :: _) => (scanCursorOf c).getD 0
  | _ => 0

/-- `Response::getCollection`: the items of a SCAN response. -/
def RValue.getCollection : RValue → List String
  | .arr [_, .arr items] => items.map RValue.bulkStr
  | _ => []

/-- Modelled from the spec: `Response::value()` rendered as a string
(`QVariant::toString`); for an error reply this is the error text. -/
def RValue.valueToString : RValue → String
  | .status s => s
  | .err s => s
  | .bulk s => s
  | .int i => toString i
  | .nil => ""
  | .arr _ => ""

/-- Modelled from the spec: `QVariant::toByteArray` of a reply value
(used by `auth()` on the PING reply). -/
def toBytesQ : RValue → String
  | .status s => s
  | .err s => s
  | .bulk s => s
  | .int i => toString i
  | .nil => ""
  | .arr _ => ""

/-- Modelled from the spec: `value().toList()` — the elements of an array
reply, `[]` for anything else. -/
def toListQ : RValue → List RValue
  | .arr xs => xs
  | _ => []

/-- Modelled from the spec: `QVariant::toString` of a list element. -/
def toStringQ : RValue → String
  | .status s => s
  | .err s => s
  | .bulk s => s
  | .int i => toString i
  | .nil => ""
  | .arr _ => ""

/-- Modelled from the spec: `QVariant::toStringList` — an array becomes its
elements rendered as strings, a single string becomes a singleton list. -/
def toStringListQ : RValue → List String
  | .arr xs => xs.map toStringQ
  | .status s => [s]
  | .err s => [s]
  | .bulk s => [s]
  | _ => []

/-- Modelled from the spec: `QVariant::toInt` of a reply value. -/
def toIntQVar : RValue → Int
  | .int i => i
  | .status s => toIntQ s
  | .err s => toIntQ s
  | .bulk s => toIntQ s
  | _ => 0

/-! ## ScanCommand -/

/-- Modelled from the spec (§3 ScanCommand; scancommand.cpp is not under
src/): a SCAN-family command is its raw argument list (first argument is
the command name). -/
structure ScanCmd where
  args : List String
deriving DecidableEq, Repr

/-- `Command::getPartAsString(0)`: the command name. -/
def ScanCmd.name (c : ScanCmd) : String := c.args.headD ""

/-- Modelled from the spec (§3): the cursor argument position — arg 1 for
SCAN/ISCAN, arg 2 for HSCAN/SSCAN/ZSCAN. -/
def ScanCmd.cursorPos (c : ScanCmd) : Nat :=
  if toLowerQ c.name == "scan" || toLowerQ c.name == "iscan" then 1 else 2

/-- `ScanCommand::setCursor`: overwrite the cursor argument. -/
def ScanCmd.setCursor (c : ScanCmd) (cur : Nat) : ScanCmd :=
  ⟨c.args.set c.cursorPos (toString cur)⟩

/-- Modelled from the spec (§3): the first argument is one of
SCAN/HSCAN/SSCAN/ZSCAN/ISCAN (case-insensitive) and the cursor position is
inside the argument list. -/
def ScanCmd.isValidScanCommand (c : ScanCmd) : Bool :=
  (toLowerQ c.name == "scan" || toLowerQ c.name == "hscan" ||
   toLowerQ c.name == "sscan" || toLowerQ c.name == "zscan" ||
   toLowerQ c.name == "iscan") && decide (c.cursorPos < c.args.length)

/-! ## processScanCommand -/

/-- The sentinel terminator delivered by incremental scan chains
(connection.cpp:20). -/
def END_OF_COLLECTION : String := "end_of_collection"

/-- First argument of the collection callback (`QVariant`): null, a list of
items, or — on the error path, where the source passes `r.value()` — the
reply's value rendered as a string. -/
inductive CbVal where
  | null
  | vlist (xs : List String)
  | vstr (s : String)
deriving DecidableEq, Repr

/-- Observable events of a scan chain: commands enqueued on the transporter
(`runCommand`), the SCAN→ISCAN name replacement, and invocations of the
collection callback. -/
inductive ScanEv where
  | issue (args : List String)
  | subst
  | cb (v : CbVal) (err : String)
deriving DecidableEq, Repr

/-- Translated from `Connection::processScanCommand`
(connection.cpp:438-498).  The environment is the list of
`(reply, errorString)` pairs the transporter delivers to the successive
commands of the chain; the function returns the chain's observable events.
The final recursive call (connection.cpp:494) passes only three arguments
in the source; the header (not under src/) defaults `incrementalProcessing`
to `false` — modelled from the spec, whose §4.3 fixes the two-argument
`retrieveCollection` call as aggregate mode. -/
def processScanCommand (cmd : ScanCmd) (result : List String)
    (incrementalProcessing : Bool) : List (RValue × String) → List ScanEv
  | [] => [.issue cmd.args]
  | (r, error) :: rest =>
    .issue cmd.args ::
    (if r.isErrorMessage then
      if toLowerQ cmd.name == "scan" && r.isDisabledCommandErrorMessage then
        .subst :: processScanCommand ⟨cmd.args.set 0 "iscan"⟩ result incrementalProcessing rest
      else
        [.cb (.vstr r.valueToString) r.valueToString]
    else if error ≠ "" then
      [.cb .null error]
    else
      let result1 := if incrementalProcessing then [] else result
      if !r.isValidScanResponse then
        if result1.isEmpty then
          [.cb .null (if incrementalProcessing then END_OF_COLLECTION else "")]
        else
          [.cb (.vlist result1) ""]
      else
        let result2 := result1 ++ r.getCollection
        if r.getCursor ≤ 0 then
          [.cb (.vlist result2) (if incrementalProcessing then END_OF_COLLECTION else "")]
        else
          processScanCommand (cmd.setCursor r.getCursor) result2 false rest)

/-- Translated from `Connection::retrieveCollection` (connection.cpp:193-198):
reject invalid scan commands, then run the aggregate-mode chain. -/
def retrieveCollection (cmd : ScanCmd) (replies : List (RValue × String)) :
    Except String (List ScanEv) :=
  if !cmd.isValidScanCommand then Except.error "Invalid command"
  else Except.ok (processScanCommand cmd [] false replies)

/-- Events of an incremental chain: the user callback carries
`(items, errorString, isLast)`. -/
inductive IncEv where
  | issue (args : List String)
  | subst
  | cb (v : CbVal) (err : String) (isLast : Bool)
deriving DecidableEq, Repr

/-- Translated from the wrapper lambda in
`Connection::retrieveCollectionIncrementally` (connection.cpp:205-215):
`END_OF_COLLECTION` becomes `isLast=true` with an empty error, a real error
becomes `isLast=true` with that error, anything else is `isLast=false`. -/
def incWrap : ScanEv → IncEv
  | .issue a => .issue a
  | .subst => .subst
  | .cb c err =>
    if err == END_OF_COLLECTION then .cb c "" true
    else if err ≠ "" then .cb c err true
    else .cb c "" false

/-- Translated from `Connection::retrieveCollectionIncrementally`
(connection.cpp:200-217): validity check, then the chain with a fresh
accumulator and `incrementalProcessing = true`. -/
def retrieveCollectionIncrementally (cmd : ScanCmd)
    (replies : List (RValue × String)) : Except String (List IncEv) :=
  if !cmd.isValidScanCommand then Except.error "Invalid command"
  else Except.ok ((processScanCommand cmd [] true replies).map incWrap)

/-- The callback invocations of a scan-chain event list. -/
def scanCbs (evs : List ScanEv) : List (CbVal × String) :=
  evs.filterMap fun e =>
    match e with
    | .cb v s => some (v, s)
    | _ => none

/-- The callback invocations of a chain wrapped in `Except` (empty on the
invalid-command failure). -/
def scanCbsE : Except String (List ScanEv) → List (CbVal × String)
  | .ok evs => scanCbs evs
  | .error _ => []

/-- The incremental callback invocations `(items, err, isLast)`. -/
def incCbs (evs : List IncEv) : List (CbVal × String × Bool) :=
  evs.filterMap fun e =>
    match e with
    | .cb v s l => some (v, s, l)
    | _ => none

/-- Incremental callbacks of a wrapped chain. -/
def incCbsE : Except String (List IncEv) → List (CbVal × String × Bool)
  | .ok evs => incCbs evs
  | .error _ => []

/-- Number of SCAN→ISCAN substitutions performed in a chain. -/
def countSubst (evs : List ScanEv) : Nat :=
  evs.countP fun e =>
    match e with
    | .subst => true
    | _ => false

/-- Substitution count of a wrapped chain. -/
def countSubstE : Except String (List ScanEv) → Nat
  | .ok evs => countSubst evs
  | .error _ => 0

/-- A reply is a successful SCAN step with cursor `c` and items `xs`:
no transport error, not an error reply, a valid SCAN response with that
cursor and collection. -/
def scanReplyIs (r : RValue × String) (c : Nat) (xs : List String) : Bool :=
  r.2 == "" && !r.1.isErrorMessage && r.1.isValidScanResponse &&
    r.1.getCursor == c && r.1.getCollection == xs

/-- The replies `rs` form a terminating SCAN chain: the middle replies carry
the non-zero cursors and batches listed in `mids`, the final reply carries
cursor 0 and batch `xs`. -/
def repliesChain : List (RValue × String) → List (Nat × List String) → List String → Bool
  | [r], [], xs => scanReplyIs r 0 xs
  | r :: r2 :: rs, (c, ys) :: mids, xs =>
    scanReplyIs r c ys && c != 0 && repliesChain (r2 :: rs) mids xs
  | _, _, _ => false

/-! ## Connection mode and cluster-wide operations -/

/-- `Connection::Mode` (connection.h, spec §3). -/
inductive Mode where
  | Normal
  | Cluster
  | Sentinel
deriving DecidableEq, Repr

/-- A cluster node address `(host, port)`. -/
abbrev Host := String × Int

/-- Translated from `Connection::getMasterNodes` (connection.cpp:546-575):
on a non-cluster connection or a failing `CLUSTER SLOTS` the list is empty;
otherwise each slot entry with at least 3 fields contributes the
`(host, port)` of its index-2 (master) details. -/
def getMasterNodes (mode : Mode) (slotsReply : Except String RValue) : List Host :=
  if mode ≠ Mode.Cluster then []
  else
    match slotsReply with
    | .error _ => []
    | .ok r =>
      (toListQ r).filterMap fun clusterSlot =>
        let details := toListQ clusterSlot
        if details.length < 3 then none
        else
          let masterDetails := toListQ (details.getD 2 .nil)
          some (toStringQ (masterDetails.getD 0 .nil),
                toIntQVar (masterDetails.getD 1 .nil))

/-- The reconnect target chosen by `clusterConnectToNextMasterNode`
(connection.cpp:520-524): the node's own address when
`overrideClusterHost` is set, otherwise the configured host with the
node's port. -/
def clusterTarget (cfgHost : String) (override : Bool) (h : Host) : Host :=
  if override then h else (cfgHost, h.2)

/-- Per-node environment of a `getClusterKeys` traversal: the connect step
fails, or the per-node key scan succeeds with `keys`, or it fails with an
error string. -/
inductive NodeOutcome where
  | connectFail (err : String)
  | scanOk (keys : List String)
  | scanFail (err : String)
deriving DecidableEq, Repr

/-- Observable events of a `getClusterKeys` traversal: a `reconnectTo` to a
node, and invocations of the terminal `RawKeysListCallback`. -/
inductive ClusterEv where
  | visit (h : Host)
  | keysDone (keys : List String) (err : String)
deriving DecidableEq, Repr

/-- Translated from the `getClusterKeys` lambdas plus
`clusterConnectToNextMasterNode` (connection.cpp:247-282, 509-529).
With no unvisited node `clusterConnectToNextMasterNode` simply returns
(no callback); otherwise it pops the first node, reconnects, and the
node's outcome drives either a terminal callback (connect failure with the
configured host:port in the message, or a scan error) or accumulation and
the next node.  An exhausted outcome list means the reconnect never
completed: no further events. -/
def clusterKeysLoop (cfgHost : String) (cfgPort : Int) (override : Bool)
    (acc : List String) : List Host → List NodeOutcome → List ClusterEv
  | [], _ => []
  | h :: _, [] => [.visit (clusterTarget cfgHost override h)]
  | h :: pending, o :: outs =>
    .visit (clusterTarget cfgHost override h) ::
    match o with
    | .connectFail _ =>
      [.keysDone acc ("Cannot connect to cluster node " ++ cfgHost ++ ":" ++ toString cfgPort)]
    | .scanFail e => [.keysDone [] e]
    | .scanOk keys =>
      if pending.isEmpty then [.keysDone (acc ++ keys) ""]
      else clusterKeysLoop cfgHost cfgPort override (acc ++ keys) pending outs

/-- Translated from `Connection::getClusterKeys` (connection.cpp:247-282):
require cluster mode (throw otherwise), fetch the master list, and run the
traversal with an empty accumulator. -/
def getClusterKeys (mode : Mode) (cfgHost : String) (cfgPort : Int)
    (override : Bool) (slotsReply : Except String RValue)
    (outs : List NodeOutcome) : Except String (List ClusterEv) :=
  if mode ≠ Mode.Cluster then Except.error "Connection is not in cluster mode"
  else Except.ok (clusterKeysLoop cfgHost cfgPort override []
    (getMasterNodes mode slotsReply) outs)

/-- Per-node environment of a cluster `flushDbKeys` traversal. -/
inductive FlushOutcome where
  | connectFail (err : String)
  | cmdOk
  | cmdFail (err : String)
deriving DecidableEq, Repr

/-- Observable events of `flushDbKeys`: node reconnects, commands enqueued
(argument frames plus target db index), and terminal callback invocations. -/
inductive FlushEv where
  | visit (h : Host)
  | cmdIssued (args : List String) (db : Int)
  | flushDone (err : String)
deriving DecidableEq, Repr

/-- Translated from the cluster branch of `Connection::flushDbKeys`
(connection.cpp:286-314).  Each visited node gets a `FLUSHDB` with no db
argument; the two-argument `command({"FLUSHDB"}, this, m_cmdCallback)` call
leaves the db index at the `Command` default, which is modelled from the
spec (§3: target database index −1 means "do not issue SELECT";
command.h is not under src/). -/
def flushClusterLoop (cfgHost : String) (cfgPort : Int) (override : Bool)
    (dbIndex : Int) : List Host → List FlushOutcome → List FlushEv
  | [], _ => []
  | h :: _, [] => [.visit (clusterTarget cfgHost override h)]
  | h :: pending, o :: outs =>
    .visit (clusterTarget cfgHost override h) ::
    match o with
    | .connectFail _ =>
      [.flushDone ("Cannot connect to cluster node " ++ cfgHost ++ ":" ++ toString cfgPort)]
    | .cmdFail e =>
      [.cmdIssued ["FLUSHDB"] (-1),
       .flushDone ("Cannot flush db (" ++ toString dbIndex ++ "): " ++ e)]
    | .cmdOk =>
      .cmdIssued ["FLUSHDB"] (-1) ::
      (if pending.isEmpty then [.flushDone ""]
       else flushClusterLoop cfgHost cfgPort override dbIndex pending outs)

/-- Translated from `Connection::flushDbKeys` (connection.cpp:284-330):
the cluster branch runs the master traversal; the non-cluster branch issues
one `FLUSHDB` against `dbIndex` and reports the (possibly empty) error via
the callback.  `cmdErr` is the error string the single command's completion
delivers ("" on success). -/
def flushDbKeys (mode : Mode) (cfgHost : String) (cfgPort : Int)
    (override : Bool) (dbIndex : Int) (slotsReply : Except String RValue)
    (outs : List FlushOutcome) (cmdErr : String) : List FlushEv :=
  if mode = Mode.Cluster then
    flushClusterLoop cfgHost cfgPort override dbIndex
      (getMasterNodes mode slotsReply) outs
  else
    [.cmdIssued ["FLUSHDB"] dbIndex,
     .flushDone (if cmdErr ≠ ""
       then "Cannot flush db (" ++ toString dbIndex ++ "): " ++ cmdErr
       else "")]

/-- Number of terminal `RawKeysListCallback` invocations. -/
def countKeysDone (evs : List ClusterEv) : Nat :=
  evs.countP fun e =>
    match e with
    | .keysDone _ _ => true
    | _ => false

/-- Terminal-callback count of a wrapped `getClusterKeys` run (0 when the
call failed with an exception). -/
def countKeysDoneE : Except String (List ClusterEv) → Nat
  | .ok evs => countKeysDone evs
  | .error _ => 0

/-- Number of terminal `flushDbKeys` callback invocations. -/
def countFlushDone (evs : List FlushEv) : Nat :=
  evs.countP fun e =>
    match e with
    | .flushDone _ => true
    | _ => false

/-- The nodes visited (reconnect targets) by a `getClusterKeys` run. -/
def keysVisits (evs : List ClusterEv) : List Host :=
  evs.filterMap fun e =>
    match e with
    | .visit h => some h
    | _ => none

/-- The nodes visited by a `flushDbKeys` run. -/
def flushVisits (evs : List FlushEv) : List Host :=
  evs.filterMap fun e =>
    match e with
    | .visit h => some h
    | _ => none

/-- The commands enqueued by a `flushDbKeys` run, with their db index. -/
def flushIssued (evs : List FlushEv) : List (List String × Int) :=
  evs.filterMap fun e =>
    match e with
    | .cmdIssued a d => some (a, d)
    | _ => none

/-! ## ServerInfo parsing -/

/-- Case-insensitive prefix match; returns the rest of the input after the
pattern. -/
def matchCIPrefix : List Char → List Char → Option (List Char)
  | [], l => some l
  | _ :: _, [] => none
  | p :: ps, c :: cs => if p.toLower == c.toLower then matchCIPrefix ps cs else none

/-- Is `c` an ASCII letter? -/
def isLetterCh (c : Char) : Bool :=
  ('a' ≤ c && c ≤ 'z') || ('A' ≤ c && c ≤ 'Z')

/-- Maximal leading run of ASCII letters. -/
def takeLetters : List Char → List Char × List Char
  | [] => ([], [])
  | c :: cs =>
    if isLetterCh c then
      let p := takeLetters cs
      (c :: p.1, p.2)
    else ([], c :: cs)

/-- First match of the case-insensitive regex
`redis_version:([0-9]+\.[0-9]+)` (connection.cpp:698): the captured
`major.minor` text, scanning left to right. -/
def findVersionCap : List Char → Option String
  | [] => none
  | c :: rest =>
    match matchCIPrefix "redis_version:".data (c :: rest) with
    | some after =>
      let p1 := takeDigits after
      if p1.1 ≠ [] then
        match p1.2 with
        | '.' :: r2 =>
          let p2 := takeDigits r2
          if p2.1 ≠ [] then some ⟨p1.1 ++ '.' :: p2.1⟩ else findVersionCap rest
        | _ => findVersionCap rest
      else findVersionCap rest
    | none => findVersionCap rest

/-- First match of the case-insensitive regex `redis_mode:([a-z]+)`
(connection.cpp:700): the captured mode word as it appears in the input. -/
def findModeCap : List Char → Option String
  | [] => none
  | c :: rest =>
    match matchCIPrefix "redis_mode:".data (c :: rest) with
    | some after =>
      let p := takeLetters after
      if p.1 ≠ [] then some ⟨p.1⟩ else findModeCap rest
    | none => findModeCap rest

/-- Split on the two-character separator CRLF, mirroring
`info.split("\r\n")` (connection.cpp:678). -/
def splitCRLF : List Char → List (List Char)
  | [] => [[]]
  | '\r' :: '\n' :: rest => [] :: splitCRLF rest
  | c :: rest =>
    match splitCRLF rest with
    | [] => [[c]]
    | g :: gs => (c :: g) :: gs

/-- Split on a newline, giving the line starts at which the multiline
keyspace regex is anchored. -/
def splitLF : List Char → List (List Char)
  | [] => [[]]
  | '\n' :: rest => [] :: splitLF rest
  | c :: rest =>
    match splitLF rest with
    | [] => [[c]]
    | g :: gs => (c :: g) :: gs

/-- Match of `^db(\d+):keys=(\d+).*` against one line: the two captures run
through `QString::toInt`. -/
def matchDbLine (line : String) : Option (Nat × Nat) :=
  match line.data with
  | 'd' :: 'b' :: rest =>
    let p1 := takeDigits rest
    if p1.1 = [] then none
    else
      match p1.2 with
      | ':' :: 'k' :: 'e' :: 'y' :: 's' :: '=' :: r2 =>
        let p2 := takeDigits r2
        if p2.1 = [] then none else some (capToInt p1.1, capToInt p2.1)
      | _ => none
  | _ => none

/-- All keyspace matches of the multiline regex `^db(\d+):keys=(\d+).*`
over the INFO text (connection.cpp:721-728), in match order: one attempt
per line start. -/
def keyspaceMatches (info : String) : List (Nat × Nat) :=
  (splitLF info.data).filterMap fun l => matchDbLine ⟨l⟩

/-- `QMap<int,int>::insert`: sorted association list, overwriting an
existing key. -/
def mapInsert (k v : Nat) : List (Nat × Nat) → List (Nat × Nat)
  | [] => [(k, v)]
  | (k2, v2) :: rest =>
    if k < k2 then (k, v) :: (k2, v2) :: rest
    else if k = k2 then (k, v) :: rest
    else (k2, v2) :: mapInsert k v rest

/-- Keys of a map. -/
def keysOf (m : List (Nat × Nat)) : List Nat := m.map Prod.fst

/-- `QMap::value`-style lookup. -/
def lookupK : List (Nat × Nat) → Nat → Option Nat
  | [], _ => none
  | (k2, v2) :: rest, k => if k = k2 then some v2 else lookupK rest k

/-- `QMap::contains`. -/
def containsK (m : List (Nat × Nat)) (k : Nat) : Bool := (lookupK m k).isSome

/-- Insert every keyspace match into an (initially given) map, in match
order; later matches for the same db overwrite earlier ones. -/
def foldIns (acc : List (Nat × Nat)) (ms : List (Nat × Nat)) : List (Nat × Nat) :=
  ms.foldl (fun m p => mapInsert p.1 p.2 m) acc

/-- `QMap::lastKey` with a default for the empty map. -/
def lastKeyD (m : List (Nat × Nat)) : Nat :=
  match m.getLast? with
  | some p => p.1
  | none => 0

/-- One step of the densification loop body (connection.cpp:733-736):
insert 0 for the index when it is absent. -/
def densifyStep (acc : List (Nat × Nat)) (i : Nat) : List (Nat × Nat) :=
  if containsK acc i then acc else mapInsert i 0 acc

/-- Translated from the densification loop of `ServerInfo::fromString`
(connection.cpp:730-737): nothing for an empty map, otherwise insert 0 for
every index below `lastKey` that is absent. -/
def densify (m : List (Nat × Nat)) : List (Nat × Nat) :=
  if m.isEmpty then m
  else (List.range (lastKeyD m)).foldl densifyStep m

/-- The parsed `ServerInfo` (connection.h, spec §3).  `versionRaw` holds the
text captured by the version regex; its `toDouble` conversion is a float and
is not modelled (no claim depends on it).  `parsed` records the
section/property insertions in order. -/
structure ServerInfo where
  versionRaw : Option String
  clusterMode : Bool
  sentinelMode : Bool
  databases : List (Nat × Nat)
  parsed : List (String × String × String)
deriving DecidableEq, Repr

/-- Translated from the section loop of `ServerInfo::fromString`
(connection.cpp:678-696): split on CRLF, `#` lines open a lowercased
section (text from offset 2), other lines split on the first colon, lines
without a colon are skipped. -/
def parseSections (lines : List (List Char)) : List (String × String × String) :=
  (lines.foldl
    (fun (st : String × List (String × String × String)) line =>
      match line with
      | '#' :: rest => (toLowerQ ⟨rest.drop 1⟩, st.2)
      | _ =>
        match line.findIdx? (· == ':') with
        | none => st
        | some i => (st.1, st.2 ++ [(st.1, ⟨line.take i⟩, ⟨line.drop (i + 1)⟩)]))
    ("unknown", [])).2

/-- Translated from `ServerInfo::fromString` (connection.cpp:676-740). -/
def ServerInfo.fromString (info : String) : ServerInfo :=
  let parsed := parseSections (splitCRLF info.data)
  let versionRaw := findVersionCap info.data
  let modeCap := findModeCap info.data
  let clusterMode := modeCap == some "cluster"
  let sentinelMode := modeCap == some "sentinel"
  if clusterMode then
    { versionRaw, clusterMode, sentinelMode, databases := [(0, 0)], parsed }
  else if sentinelMode then
    { versionRaw, clusterMode, sentinelMode, databases := [], parsed }
  else
    { versionRaw, clusterMode, sentinelMode,
      databases := densify (foldIns [] (keyspaceMatches info)), parsed }

/-! ## Claim-side formalization of the keyspace invariant (C7) -/

/-- The value of the last keyspace match for db `i`, if any. -/
def lastValOf : List (Nat × Nat) → Nat → Option Nat
  | [], _ => none
  | p :: rest, i =>
    match lastValOf rest i with
    | some v => some v
    | none => if p.1 = i then some p.2 else none

/-- The key count the INFO text reports for db `i` (0 when unreported),
following the claim's words. -/
def lastReported (ms : List (Nat × Nat)) (i : Nat) : Nat := (lastValOf ms i).getD 0

/-- The largest db index observed among the keyspace matches. -/
def msMaxKey : List (Nat × Nat) → Option Nat
  | [] => none
  | p :: rest =>
    match msMaxKey rest with
    | some m => some (max p.1 m)
    | none => some p.1

/-- Stated from the claim: given the observed keyspace matches `ms`, the
`databases` map is densely filled for every index from 0 up to the largest
observed db index, with value 0 for unreported indices (and empty when
nothing was observed). -/
def denselyFilledB (ms dbs : List (Nat × Nat)) : Bool :=
  match msMaxKey ms with
  | none => dbs == []
  | some mx =>
    (keysOf dbs == List.range (mx + 1)) && dbs.all fun p => p.2 == lastReported ms p.1

/-- Stated from the claim (C7): in cluster mode `databases` is exactly
`{0 → 0}`, otherwise it is densely filled as above. -/
def databasesPerClaimB (si : ServerInfo) (ms : List (Nat × Nat)) : Bool :=
  if si.clusterMode then si.databases == [(0, 0)]
  else denselyFilledB ms si.databases

/-! ## auth() -/

/-- The configuration fields `auth()` and the cluster helpers read
(connectionconfig.h, spec §3). -/
structure ConnCfg where
  host : String
  port : Int
  useAuth : Bool
  authPassword : String
  useSshTunnel : Bool
  overrideClusterHost : Bool
deriving DecidableEq, Repr

/-- The synchronous replies the server delivers during `auth()`: the PING
reply, the raw `INFO ALL` text (fed to `ServerInfo::fromString` by
`refreshServerInfo`, connection.cpp:242-245), and the `SENTINEL masters`
reply. -/
structure AuthEnv where
  pingReply : RValue
  infoText : String
  mastersReply : RValue

/-- Signals `auth()` emits. -/
inductive AuthEv where
  | log (s : String)
  | authError (s : String)
  | error (s : String)
  | reconnectTo (host : String) (port : Int)
  | authOk
  | connected
deriving DecidableEq, Repr

/-- Translated from `Connection::auth` (connection.cpp:594-659), on the
path where the synchronous commands themselves do not throw: the emitted
signals plus the resulting `m_currentMode` (the mode is only assigned in
the cluster and sentinel branches). -/
def auth (cfg : ConnCfg) (env : AuthEnv) (mode0 : Mode) : List AuthEv × Mode :=
  if toBytesQ env.pingReply ≠ "PONG" then
    ([.log "AUTH",
      .authError "Redis server requires password or password is not valid",
      .error "AUTH ERROR"], mode0)
  else
    let si := ServerInfo.fromString env.infoText
    if si.clusterMode then
      ([.log "AUTH", .log "Cluster detected", .log "Connected",
        .authOk, .connected], Mode.Cluster)
    else if si.sentinelMode then
      if !env.mastersReply.isArray then
        ([.log "AUTH", .log "Sentinel detected. Requesting master node...",
          .error "Connection error: cannot retrive master node from sentinel"],
         Mode.Sentinel)
      else
        let result := toListQ env.mastersReply
        if result.length = 0 then
          ([.log "AUTH", .log "Sentinel detected. Requesting master node...",
            .error "Connection error: invalid response from sentinel"],
           Mode.Sentinel)
        else
          let masterInfo := toStringListQ (result.headD .nil)
          if masterInfo.length < 6 then
            ([.log "AUTH", .log "Sentinel detected. Requesting master node...",
              .error "Connection error: invalid response from sentinel"],
             Mode.Sentinel)
          else
            let host0 := masterInfo.getD 3 ""
            let host :=
              if !cfg.useSshTunnel && (host0 == "127.0.0.1" || host0 == "localhost")
              then cfg.host else host0
            ([.log "AUTH", .log "Sentinel detected. Requesting master node...",
              .reconnectTo host (toIntQ (masterInfo.getD 5 ""))],
             Mode.Sentinel)
    else
      ([.log "AUTH", .log "Connected", .authOk, .connected], mode0)

/-! ## runCommand with auto-connect -/

/-- First post-connect signal observed by a `callAfterConnect` registration
(connection.cpp:531-544): `authOk` or `error(msg)`. -/
inductive ConnectOutcome where
  | authOkFirst
  | errorFirst (msg : String)
deriving DecidableEq, Repr

/-- Final state of a command's promise. -/
inductive FutureR where
  | completed (r : RValue)
  | cancelled
deriving Repr

/-- Modelled from the spec (§6 transporter contract): once a command is
enqueued on a live transporter, its promise is completed with the reply the
transporter parses for it. -/
def runCommandConnectedF (resp : RValue) : FutureR := .completed resp

/-- Translated from `Connection::runCommand` (connection.cpp:143-179).
`valid`/`connected` are `cmd.isValid()`/`isConnected()`; `outcome` is the
first of `authOk`/`error` fired after the `connect(false)` that the
auto-connect path triggers (delivered through `callAfterConnect`,
connection.cpp:531-544); `resp` is the reply the transporter delivers when
the command is eventually enqueued.  On `authOk` the continuation re-enters
`runCommand` on the now-connected connection and the deferred adopts its
future (`d->complete(runCommand(cmd))`); on `error` the deferred is
cancelled. -/
def runCommandF (valid connected autoConnect : Bool)
    (outcome : ConnectOutcome) (resp : RValue) : Except String FutureR :=
  if !valid then Except.error "Command is not valid"
  else if !connected then
    if autoConnect then
      Except.ok
        (match outcome with
         | .authOkFirst => runCommandConnectedF resp
         | .errorFirst _ => .cancelled)
    else Except.error "Try run command in not connected state"
  else Except.ok (runCommandConnectedF resp)

/-! ## Lemmas about the scan chain -/

theorem headD_set_succ (l : List String) (k : Nat) (v : String) :
    (l.set (k + 1) v).headD "" = l.headD "" := by
  cases l <;> simp

theorem name_setCursor (c : ScanCmd) (n : Nat) : (c.setCursor n).name = c.name := by
  have h : c.cursorPos = 1 ∨ c.cursorPos = 2 := by
    unfold ScanCmd.cursorPos
    split <;> simp
  unfold ScanCmd.setCursor ScanCmd.name
  rcases h with h | h <;> rw [h] <;> exact headD_set_succ _ _ _

theorem countSubst_nil : countSubst [] = 0 := rfl

theorem countSubst_issue_cons (a : List String) (evs : List ScanEv) :
    countSubst (.issue a :: evs) = countSubst evs := by
  unfold countSubst
  rw [List.countP_cons]
  simp

theorem countSubst_subst_cons (evs : List ScanEv) :
    countSubst (.subst :: evs) = countSubst evs + 1 := by
  unfold countSubst
  rw [List.countP_cons]
  simp

theorem countSubst_single_cb (v : CbVal) (s : String) :
    countSubst [.cb v s] = 0 := by
  simp [countSubst]

theorem countSubst_ite (c : Prop) [Decidable c] (l1 l2 : List ScanEv)
    (h1 : countSubst l1 = 0) (h2 : countSubst l2 = 0) :
    countSubst (if c then l1 else l2) = 0 := by
  split <;> assumption

theorem countSubst_cb_cons (v : CbVal) (s : String) (evs : List ScanEv) :
    countSubst (.cb v s :: evs) = countSubst evs := by
  unfold countSubst
  rw [List.countP_cons]
  simp

/-- A chain whose pending command is not named "scan" (case-insensitively)
never substitutes. -/
theorem countSubst_nonscan (rs : List (RValue × String)) :
    ∀ (cmd : ScanCmd) (acc : List String) (inc : Bool),
      (toLowerQ cmd.name == "scan") = false →
      countSubst (processScanCommand cmd acc inc rs) = 0 := by
  induction rs with
  | nil =>
    intro cmd acc inc _
    simp [processScanCommand, countSubst]
  | cons p rest ih =>
    intro cmd acc inc h
    obtain ⟨r, e⟩ := p
    rw [processScanCommand, countSubst_issue_cons]
    by_cases herr : r.isErrorMessage = true
    · rw [if_pos herr, if_neg (by simp [h]), countSubst_cb_cons, countSubst_nil]
    · rw [if_neg herr]
      by_cases he : e = ""
      · rw [if_neg (by simp [he])]
        by_cases hv : (!r.isValidScanResponse) = true
        · rw [if_pos hv]
          exact countSubst_ite _ _ _ (countSubst_single_cb _ _) (countSubst_single_cb _ _)
        · rw [if_neg hv]
          by_cases hc : r.getCursor ≤ 0
          · rw [if_pos hc, countSubst_cb_cons, countSubst_nil]
          · rw [if_neg hc]
            exact ih _ _ _ (by rw [name_setCursor]; exact h)
      · rw [if_pos (by simp [he]), countSubst_cb_cons, countSubst_nil]

/-- Any chain substitutes at most once: after the replacement the command
is named "iscan". -/
theorem countSubst_le_one (rs : List (RValue × String)) :
    ∀ (cmd : ScanCmd) (acc : List String) (inc : Bool),
      countSubst (processScanCommand cmd acc inc rs) ≤ 1 := by
  induction rs with
  | nil =>
    intro cmd acc inc
    simp [processScanCommand, countSubst]
  | cons p rest ih =>
    intro cmd acc inc
    obtain ⟨r, e⟩ := p
    rw [processScanCommand, countSubst_issue_cons]
    by_cases herr : r.isErrorMessage = true
    · rw [if_pos herr]
      by_cases hsub : (toLowerQ cmd.name == "scan" && r.isDisabledCommandErrorMessage) = true
      · rw [if_pos hsub, countSubst_subst_cons]
        have hscan : (toLowerQ cmd.name == "scan") = true :=
          (Bool.and_eq_true .. |>.mp hsub).1
        have hargs : cmd.args ≠ [] := by
          intro hnil
          rw [show cmd.name = "" by unfold ScanCmd.name; rw [hnil]; rfl] at hscan
          exact absurd hscan (by decide)
        obtain ⟨a, t, hat⟩ := List.exists_cons_of_ne_nil hargs
        have hrest : countSubst (processScanCommand ⟨cmd.args.set 0 "iscan"⟩ acc inc rest) = 0 := by
          apply countSubst_nonscan
          rw [hat]
          have hn : (⟨(a :: t).set 0 "iscan"⟩ : ScanCmd).name = "iscan" := rfl
          rw [hn]
          decide
        omega
      · rw [if_neg hsub, countSubst_cb_cons, countSubst_nil]
        omega
    · rw [if_neg herr]
      by_cases he : e = ""
      · rw [if_neg (by simp [he])]
        by_cases hv : (!r.isValidScanResponse) = true
        · rw [if_pos hv]
          have h0 := countSubst_ite
            ((if inc then ([] : List String) else acc).isEmpty = true) _ _
            (countSubst_single_cb CbVal.null (if inc = true then END_OF_COLLECTION else ""))
            (countSubst_single_cb (CbVal.vlist (if inc = true then [] else acc)) "")
          rw [h0]
          omega
        · rw [if_neg hv]
          by_cases hc : r.getCursor ≤ 0
          · rw [if_pos hc, countSubst_cb_cons, countSubst_nil]
            omega
          · rw [if_neg hc]
            exact ih _ _ _
      · rw [if_pos (by simp [he]), countSubst_cb_cons, countSubst_nil]
        omega

/-- A chain none of whose replies is a disabled-command error never
substitutes. -/
theorem countSubst_no_disabled (rs : List (RValue × String)) :
    ∀ (cmd : ScanCmd) (acc : List String) (inc : Bool),
      (∀ p ∈ rs, p.1.isDisabledCommandErrorMessage = false) →
      countSubst (processScanCommand cmd acc inc rs) = 0 := by
  induction rs with
  | nil =>
    intro cmd acc inc _
    simp [processScanCommand, countSubst]
  | cons p rest ih =>
    intro cmd acc inc h
    obtain ⟨r, e⟩ := p
    have hr : r.isDisabledCommandErrorMessage = false := h (r, e) (by simp)
    have hrest : ∀ q ∈ rest, q.1.isDisabledCommandErrorMessage = false := by
      intro q hq
      exact h q (by simp [hq])
    rw [processScanCommand, countSubst_issue_cons]
    by_cases herr : r.isErrorMessage = true
    · rw [if_pos herr, if_neg (by simp [hr]), countSubst_cb_cons, countSubst_nil]
    · rw [if_neg herr]
      by_cases he : e = ""
      · rw [if_neg (by simp [he])]
        by_cases hv : (!r.isValidScanResponse) = true
        · rw [if_pos hv]
          exact countSubst_ite _ _ _ (countSubst_single_cb _ _) (countSubst_single_cb _ _)
        · rw [if_neg hv]
          by_cases hc : r.getCursor ≤ 0
          · rw [if_pos hc, countSubst_cb_cons, countSubst_nil]
          · rw [if_neg hc]
            exact ih _ _ _ hrest
      · rw [if_pos (by simp [he]), countSubst_cb_cons, countSubst_nil]

/-- The aggregate chain lemma: a terminating sequence of valid SCAN replies
delivers exactly one callback carrying the accumulator followed by all
batches in reply order, with an empty error string. -/
theorem processScan_chain (rs : List (RValue × String)) :
    ∀ (cmd : ScanCmd) (acc : List String) (mids : List (Nat × List String))
      (xs : List String),
      repliesChain rs mids xs = true →
      scanCbs (processScanCommand cmd acc false rs) =
        [(.vlist (acc ++ (mids.map Prod.snd).flatten ++ xs), "")] := by
  induction rs with
  | nil =>
    intro cmd acc mids xs h
    cases mids <;> simp [repliesChain] at h
  | cons p rest ih =>
    intro cmd acc mids xs h
    obtain ⟨r, e⟩ := p
    cases rest with
    | nil =>
      cases mids with
      | cons c mids2 => simp [repliesChain] at h
      | nil =>
        simp only [repliesChain, scanReplyIs, Bool.and_eq_true, beq_iff_eq,
          Bool.not_eq_true'] at h
        obtain ⟨⟨⟨⟨he, herr⟩, hvalid⟩, hcur⟩, hcol⟩ := h
        rw [processScanCommand]
        simp [he, herr, hvalid, hcur, hcol, scanCbs]
    | cons p2 rest2 =>
      cases mids with
      | nil => simp [repliesChain] at h
      | cons cys mids2 =>
        obtain ⟨c, ys⟩ := cys
        simp only [repliesChain, scanReplyIs, Bool.and_eq_true, beq_iff_eq,
          bne_iff_ne, Bool.not_eq_true'] at h
        obtain ⟨⟨⟨⟨⟨⟨he, herr⟩, hvalid⟩, hcur⟩, hcol⟩, hc0⟩, hchain⟩ := h
        rw [processScanCommand]
        simp only [he, herr, hvalid, hcur, hcol]
        have hle : ¬ (c ≤ 0) := by omega
        rw [if_neg (by simp : ¬ ((false : Bool) = true))]
        rw [if_neg (by simp : ¬ ("" ≠ ""))]
        rw [if_neg (by simp : ¬ ((!(true : Bool)) = true))]
        rw [if_neg hle]
        rw [show (if (false : Bool) = true then ([] : List String) else acc) = acc
          from by simp]
        rw [show scanCbs (ScanEv.issue cmd.args ::
              processScanCommand (cmd.setCursor c) (acc ++ ys) false (p2 :: rest2)) =
            scanCbs (processScanCommand (cmd.setCursor c) (acc ++ ys) false (p2 :: rest2))
          from by simp [scanCbs]]
        rw [ih (cmd.setCursor c) (acc ++ ys) mids2 xs hchain]
        simp

/-! ## C1 -/

/-- C1: the claim states that every incremental chain delivers exactly one
callback with `isLast=true`, in particular when a non-zero cursor precedes
the final cursor 0.  The code drops the `incrementalProcessing` flag on the
cursor-continuation recursion (connection.cpp:494), so on the chain
`[cursor 48: ["a","b"], cursor 0: ["c"]]` the whole run delivers exactly
one callback and it has `isLast = false` — the claimed invariant fails on
every chain with an intermediate cursor.  This theorem evaluates the code
at that failing input. -/
theorem C1_incremental_chain_never_flagged_last :
    retrieveCollectionIncrementally ⟨["scan", "0"]⟩
      [(.arr [.bulk "48", .arr [.bulk "a", .bulk "b"]], ""),
       (.arr [.bulk "0", .arr [.bulk "c"]], "")] =
      Except.ok [.issue ["scan", "0"], .issue ["scan", "48"],
        .cb (.vlist ["a", "b", "c"]) "" false] ∧
    incCbsE (retrieveCollectionIncrementally ⟨["scan", "0"]⟩
      [(.arr [.bulk "48", .arr [.bulk "a", .bulk "b"]], ""),
       (.arr [.bulk "0", .arr [.bulk "c"]], "")]) =
      [(.vlist ["a", "b", "c"], "", false)] := by
  exact ⟨rfl, rfl⟩

/-! ## C3 -/

/-- C3 counterexample: on the error reply `ERR oops` (not a disabled-command
error) the callback's first component is the reply's value rendered as a
string, not null as the claim states. -/
theorem C3_counterexample :
    scanCbsE (retrieveCollection ⟨["hscan", "key", "0"]⟩ [(.err "ERR oops", "")]) =
      [(.vstr "ERR oops", "ERR oops")] ∧
    ((CbVal.vstr "ERR oops", "ERR oops") ≠ ((CbVal.null, "ERR oops") : CbVal × String)) := by
  exact ⟨rfl, by decide⟩

/-- C3 (amended): for every error reply that is not a disabled-command error
for a command named "scan", the collection callback is delivered exactly the
pair `(errorValue, errorText)` — the first component is the reply's value —
and the scan chain stops: no further command is enqueued. -/
theorem C3_error_reply_delivers_value_and_stops
    (cmd : ScanCmd) (acc : List String) (inc : Bool)
    (r : RValue) (e : String) (rest : List (RValue × String))
    (herr : r.isErrorMessage = true)
    (hnd : (toLowerQ cmd.name == "scan" && r.isDisabledCommandErrorMessage) = false) :
    processScanCommand cmd acc inc ((r, e) :: rest) =
      [.issue cmd.args, .cb (.vstr r.valueToString) r.valueToString] := by
  rw [processScanCommand]
  simp [herr, hnd]

/-- Witness for C3's amended theorem at a concrete input. -/
theorem C3_error_reply_witness :
    processScanCommand ⟨["hscan", "key", "0"]⟩ [] false [(.err "ERR oops", "")] =
      [.issue ["hscan", "key", "0"], .cb (.vstr "ERR oops") "ERR oops"] := by
  exact C3_error_reply_delivers_value_and_stops ⟨["hscan", "key", "0"]⟩ [] false
    (.err "ERR oops") "" [] (by decide) (by decide)

/-! ## C4 -/

/-- C4: on an aggregate `retrieveCollection` chain over a valid ScanCommand
whose server replies are valid SCAN responses with cursors `c1, …, 0`, the
user callback is invoked exactly once, with the concatenation of all
batches in reply order and an empty error string. -/
theorem C4_retrieveCollection_aggregates (cmd : ScanCmd)
    (rs : List (RValue × String)) (mids : List (Nat × List String))
    (xs : List String)
    (hv : cmd.isValidScanCommand = true)
    (hc : repliesChain rs mids xs = true) :
    scanCbsE (retrieveCollection cmd rs) =
      [(.vlist ((mids.map Prod.snd).flatten ++ xs), "")] := by
  unfold retrieveCollection
  rw [hv]
  simpa using processScan_chain rs cmd [] mids xs hc

/-- Witness for C4 on the spec's S4 scenario. -/
theorem C4_witness :
    scanCbsE (retrieveCollection ⟨["scan", "0"]⟩
      [(.arr [.bulk "48", .arr [.bulk "a", .bulk "b"]], ""),
       (.arr [.bulk "0", .arr [.bulk "c"]], "")]) =
      [(.vlist ["a", "b", "c"], "")] := by
  simpa using C4_retrieveCollection_aggregates ⟨["scan", "0"]⟩
    [(.arr [.bulk "48", .arr [.bulk "a", .bulk "b"]], ""),
     (.arr [.bulk "0", .arr [.bulk "c"]], "")]
    [(48, ["a", "b"])] ["c"] (by decide) (by decide)

/-! ## C5 -/

/-- C5 counterexample: a chain whose first reply is a valid SCAN response
(cursor 5) and whose second reply is a disabled-command error performs the
SCAN→ISCAN substitution even though the first reply of the chain is not a
disabled-command error, contradicting the claim's "only when … the first
reply of the chain is a disabled-command error". -/
theorem C5_counterexample :
    countSubstE (retrieveCollection ⟨["scan", "0", "MATCH", "*"]⟩
      [(.arr [.bulk "5", .arr [.bulk "a"]], ""),
       (.err "ERR unknown command", "")]) = 1 ∧
    (RValue.arr [.bulk "5", .arr [.bulk "a"]]).isDisabledCommandErrorMessage = false := by
  exact ⟨rfl, rfl⟩

/-- C5 (amended): in every scan chain the SCAN→ISCAN substitution occurs at
most once; it never occurs when the pending command's name (case-insensitive)
is not "scan" — in particular a disabled-command error for "iscan" after a
substitution triggers no further substitution — and never occurs unless some
reply of the chain (not necessarily the first) is a disabled-command
error. -/
theorem C5_substitution_at_most_once :
    (∀ (rs : List (RValue × String)) (cmd : ScanCmd) (acc : List String) (inc : Bool),
      countSubst (processScanCommand cmd acc inc rs) ≤ 1) ∧
    (∀ (rs : List (RValue × String)) (cmd : ScanCmd) (acc : List String) (inc : Bool),
      (toLowerQ cmd.name == "scan") = false →
      countSubst (processScanCommand cmd acc inc rs) = 0) ∧
    (∀ (rs : List (RValue × String)) (cmd : ScanCmd) (acc : List String) (inc : Bool),
      (∀ p ∈ rs, p.1.isDisabledCommandErrorMessage = false) →
      countSubst (processScanCommand cmd acc inc rs) = 0) := by
  exact ⟨fun rs => countSubst_le_one rs,
         fun rs => countSubst_nonscan rs,
         fun rs => countSubst_no_disabled rs⟩

/-- Witness for C5's amended theorem at concrete inputs: an "iscan" chain
hit by a disabled-command error performs no substitution, and a chain with
no disabled-command reply performs none either. -/
theorem C5_substitution_witness :
    countSubst (processScanCommand ⟨["iscan", "0"]⟩ [] false
      [(.err "ERR unknown command", "")]) = 0 ∧
    countSubst (processScanCommand ⟨["scan", "0"]⟩ [] true
      [(.arr [.bulk "0", .arr [.bulk "a"]], "")]) = 0 ∧
    countSubst (processScanCommand ⟨["scan", "0"]⟩ [] false
      [(.err "ERR unknown command", ""), (.err "ERR unknown command", "")]) ≤ 1 := by
  refine ⟨?_, ?_, ?_⟩
  · exact C5_substitution_at_most_once.2.1 _ ⟨["iscan", "0"]⟩ [] false (by decide)
  · exact C5_substitution_at_most_once.2.2 _ ⟨["scan", "0"]⟩ [] true (by decide)
  · exact C5_substitution_at_most_once.1 _ ⟨["scan", "0"]⟩ [] false

/-! ## Lemmas about the cluster traversals -/

theorem countKeysDone_visit_cons (h : Host) (evs : List ClusterEv) :
    countKeysDone (.visit h :: evs) = countKeysDone evs := by
  unfold countKeysDone
  rw [List.countP_cons]
  simp

theorem countKeysDone_done (ks : List String) (err : String) :
    countKeysDone [.keysDone ks err] = 1 := by
  simp [countKeysDone]

theorem countFlushDone_visit_cons (h : Host) (evs : List FlushEv) :
    countFlushDone (.visit h :: evs) = countFlushDone evs := by
  unfold countFlushDone
  rw [List.countP_cons]
  simp

theorem countFlushDone_cmd_cons (a : List String) (d : Int) (evs : List FlushEv) :
    countFlushDone (.cmdIssued a d :: evs) = countFlushDone evs := by
  unfold countFlushDone
  rw [List.countP_cons]
  simp

theorem countFlushDone_done (err : String) :
    countFlushDone [.flushDone err] = 1 := by
  simp [countFlushDone]

/-- A non-empty master list with a full complement of node outcomes yields
exactly one terminal `getClusterKeys` callback. -/
theorem clusterKeysLoop_one_done (masters : List Host) :
    ∀ (outs : List NodeOutcome) (cfgH : String) (cfgP : Int) (ov : Bool)
      (acc : List String),
      masters ≠ [] → outs.length = masters.length →
      countKeysDone (clusterKeysLoop cfgH cfgP ov acc masters outs) = 1 := by
  induction masters with
  | nil =>
    intro outs cfgH cfgP ov acc hne _
    exact absurd rfl hne
  | cons m rest ih =>
    intro outs cfgH cfgP ov acc _ hlen
    cases outs with
    | nil => simp at hlen
    | cons o outs2 =>
      cases o with
      | connectFail e =>
        rw [clusterKeysLoop, countKeysDone_visit_cons]
        exact countKeysDone_done _ _
      | scanFail e =>
        rw [clusterKeysLoop, countKeysDone_visit_cons]
        exact countKeysDone_done _ _
      | scanOk ks =>
        rw [clusterKeysLoop, countKeysDone_visit_cons]
        by_cases hp : rest.isEmpty = true
        · rw [if_pos hp]
          exact countKeysDone_done _ _
        · rw [if_neg hp]
          refine ih outs2 cfgH cfgP ov (acc ++ ks) ?_ (by simpa using hlen)
          intro hnil
          rw [hnil] at hp
          simp at hp

/-- A non-empty master list with a full complement of node outcomes yields
exactly one terminal `flushDbKeys` callback. -/
theorem flushClusterLoop_one_done (masters : List Host) :
    ∀ (outs : List FlushOutcome) (cfgH : String) (cfgP : Int) (ov : Bool)
      (db : Int),
      masters ≠ [] → outs.length = masters.length →
      countFlushDone (flushClusterLoop cfgH cfgP ov db masters outs) = 1 := by
  induction masters with
  | nil =>
    intro outs cfgH cfgP ov db hne _
    exact absurd rfl hne
  | cons m rest ih =>
    intro outs cfgH cfgP ov db _ hlen
    cases outs with
    | nil => simp at hlen
    | cons o outs2 =>
      cases o with
      | connectFail e =>
        rw [flushClusterLoop, countFlushDone_visit_cons]
        exact countFlushDone_done _
      | cmdFail e =>
        rw [flushClusterLoop, countFlushDone_visit_cons, countFlushDone_cmd_cons]
        exact countFlushDone_done _
      | cmdOk =>
        rw [flushClusterLoop, countFlushDone_visit_cons, countFlushDone_cmd_cons]
        by_cases hp : rest.isEmpty = true
        · rw [if_pos hp]
          exact countFlushDone_done _
        · rw [if_neg hp]
          refine ih outs2 cfgH cfgP ov db ?_ (by simpa using hlen)
          intro hnil
          rw [hnil] at hp
          simp at hp

theorem keysVisits_visit_cons (h : Host) (evs : List ClusterEv) :
    keysVisits (.visit h :: evs) = h :: keysVisits evs := by
  simp [keysVisits]

theorem keysVisits_done (ks : List String) (err : String) :
    keysVisits [.keysDone ks err] = [] := by
  simp [keysVisits]

theorem flushVisits_visit_cons (h : Host) (evs : List FlushEv) :
    flushVisits (.visit h :: evs) = h :: flushVisits evs := by
  simp [flushVisits]

theorem flushVisits_cmd_cons (a : List String) (d : Int) (evs : List FlushEv) :
    flushVisits (.cmdIssued a d :: evs) = flushVisits evs := by
  simp [flushVisits]

theorem flushVisits_done (err : String) :
    flushVisits [.flushDone err] = [] := by
  simp [flushVisits]

/-- The nodes a `getClusterKeys` traversal visits form a prefix of the
master list (mapped through the reconnect-target choice): each master is
visited at most once, in slot order. -/
theorem clusterKeysLoop_visits_prefix (masters : List Host) :
    ∀ (outs : List NodeOutcome) (cfgH : String) (cfgP : Int) (ov : Bool)
      (acc : List String),
      keysVisits (clusterKeysLoop cfgH cfgP ov acc masters outs) <+:
        masters.map (clusterTarget cfgH ov) := by
  induction masters with
  | nil =>
    intro outs cfgH cfgP ov acc
    simp [clusterKeysLoop, keysVisits]
  | cons m rest ih =>
    intro outs cfgH cfgP ov acc
    cases outs with
    | nil =>
      rw [clusterKeysLoop, List.map_cons]
      rw [show keysVisits [ClusterEv.visit (clusterTarget cfgH ov m)] =
          [clusterTarget cfgH ov m] from by simp [keysVisits]]
      exact ⟨rest.map (clusterTarget cfgH ov), rfl⟩
    | cons o outs2 =>
      cases o with
      | connectFail e =>
        rw [clusterKeysLoop, List.map_cons, keysVisits_visit_cons, keysVisits_done]
        exact List.cons_prefix_cons.mpr ⟨rfl, List.nil_prefix ..⟩
      | scanFail e =>
        rw [clusterKeysLoop, List.map_cons, keysVisits_visit_cons, keysVisits_done]
        exact List.cons_prefix_cons.mpr ⟨rfl, List.nil_prefix ..⟩
      | scanOk ks =>
        rw [clusterKeysLoop, List.map_cons, keysVisits_visit_cons]
        by_cases hp : rest.isEmpty = true
        · rw [if_pos hp, keysVisits_done]
          exact List.cons_prefix_cons.mpr ⟨rfl, List.nil_prefix ..⟩
        · rw [if_neg hp]
          exact (List.cons_prefix_cons).mpr ⟨rfl, ih outs2 cfgH cfgP ov (acc ++ ks)⟩

/-- The nodes a cluster `flushDbKeys` traversal visits form a prefix of the
master list. -/
theorem flushClusterLoop_visits_prefix (masters : List Host) :
    ∀ (outs : List FlushOutcome) (cfgH : String) (cfgP : Int) (ov : Bool)
      (db : Int),
      flushVisits (flushClusterLoop cfgH cfgP ov db masters outs) <+:
        masters.map (clusterTarget cfgH ov) := by
  induction masters with
  | nil =>
    intro outs cfgH cfgP ov db
    simp [flushClusterLoop, flushVisits]
  | cons m rest ih =>
    intro outs cfgH cfgP ov db
    cases outs with
    | nil =>
      rw [flushClusterLoop, List.map_cons]
      rw [show flushVisits [FlushEv.visit (clusterTarget cfgH ov m)] =
          [clusterTarget cfgH ov m] from by simp [flushVisits]]
      exact ⟨rest.map (clusterTarget cfgH ov), rfl⟩
    | cons o outs2 =>
      cases o with
      | connectFail e =>
        rw [flushClusterLoop, List.map_cons, flushVisits_visit_cons, flushVisits_done]
        exact List.cons_prefix_cons.mpr ⟨rfl, List.nil_prefix ..⟩
      | cmdFail e =>
        rw [flushClusterLoop, List.map_cons, flushVisits_visit_cons]
        rw [show flushVisits [FlushEv.cmdIssued ["FLUSHDB"] (-1),
            FlushEv.flushDone ("Cannot flush db (" ++ toString db ++ "): " ++ e)] = []
          from by simp [flushVisits]]
        exact List.cons_prefix_cons.mpr ⟨rfl, List.nil_prefix ..⟩
      | cmdOk =>
        rw [flushClusterLoop, List.map_cons, flushVisits_visit_cons, flushVisits_cmd_cons]
        by_cases hp : rest.isEmpty = true
        · rw [if_pos hp, flushVisits_done]
          exact List.cons_prefix_cons.mpr ⟨rfl, List.nil_prefix ..⟩
        · rw [if_neg hp]
          exact (List.cons_prefix_cons).mpr ⟨rfl, ih outs2 cfgH cfgP ov db⟩

/-- When every node scan succeeds, `getClusterKeys` visits all masters in
order and delivers one terminal callback with all keys and an empty
error. -/
theorem clusterKeysLoop_success (masters : List Host) :
    ∀ (kss : List (List String)) (cfgH : String) (cfgP : Int) (ov : Bool)
      (acc : List String),
      masters ≠ [] → kss.length = masters.length →
      clusterKeysLoop cfgH cfgP ov acc masters (kss.map NodeOutcome.scanOk) =
        masters.map (fun h => ClusterEv.visit (clusterTarget cfgH ov h)) ++
          [ClusterEv.keysDone (acc ++ kss.flatten) ""] := by
  induction masters with
  | nil =>
    intro kss cfgH cfgP ov acc hne _
    exact absurd rfl hne
  | cons m rest ih =>
    intro kss cfgH cfgP ov acc _ hlen
    cases kss with
    | nil => simp at hlen
    | cons ks kss2 =>
      rw [List.map_cons, clusterKeysLoop]
      cases rest with
      | nil =>
        have h2 : kss2 = [] := by
          rw [← List.length_eq_zero]
          simpa using hlen
        subst h2
        simp
      | cons m2 rest2 =>
        rw [if_neg (by simp : ¬ ((m2 :: rest2).isEmpty = true))]
        rw [ih kss2 cfgH cfgP ov (acc ++ ks) (by simp) (by simpa using hlen)]
        simp

/-- When every per-node `FLUSHDB` succeeds, the cluster flush visits all
masters in order, issues one bare `FLUSHDB` per master, and delivers one
terminal callback with an empty error. -/
theorem flushClusterLoop_success (masters : List Host) :
    ∀ (cfgH : String) (cfgP : Int) (ov : Bool) (db : Int),
      masters ≠ [] →
      flushClusterLoop cfgH cfgP ov db masters
          (List.replicate masters.length FlushOutcome.cmdOk) =
        (masters.map (fun h => [FlushEv.visit (clusterTarget cfgH ov h),
          FlushEv.cmdIssued ["FLUSHDB"] (-1)])).flatten ++ [FlushEv.flushDone ""] := by
  induction masters with
  | nil =>
    intro cfgH cfgP ov db hne
    exact absurd rfl hne
  | cons m rest ih =>
    intro cfgH cfgP ov db _
    rw [List.length_cons, List.replicate_succ, flushClusterLoop]
    cases rest with
    | nil => simp
    | cons m2 rest2 =>
      rw [if_neg (by simp : ¬ ((m2 :: rest2).isEmpty = true))]
      rw [ih cfgH cfgP ov db (by simp)]
      simp

theorem flushIssued_visit_cons (h : Host) (evs : List FlushEv) :
    flushIssued (.visit h :: evs) = flushIssued evs := by
  simp [flushIssued]

theorem flushIssued_cmd_cons (a : List String) (d : Int) (evs : List FlushEv) :
    flushIssued (.cmdIssued a d :: evs) = (a, d) :: flushIssued evs := by
  simp [flushIssued]

theorem flushIssued_done (err : String) :
    flushIssued [.flushDone err] = [] := by
  simp [flushIssued]

/-- Every command the cluster flush traversal enqueues is a bare `FLUSHDB`
with db index −1 (no SELECT). -/
theorem flushClusterLoop_issued_mem (masters : List Host) :
    ∀ (outs : List FlushOutcome) (cfgH : String) (cfgP : Int) (ov : Bool)
      (db : Int) (p : List String × Int),
      p ∈ flushIssued (flushClusterLoop cfgH cfgP ov db masters outs) →
      p = (["FLUSHDB"], -1) := by
  induction masters with
  | nil =>
    intro outs cfgH cfgP ov db p hp
    simp [flushClusterLoop, flushIssued] at hp
  | cons m rest ih =>
    intro outs cfgH cfgP ov db p hp
    cases outs with
    | nil =>
      rw [flushClusterLoop, flushIssued_visit_cons] at hp
      simp [flushIssued] at hp
    | cons o outs2 =>
      cases o with
      | connectFail e =>
        rw [flushClusterLoop, flushIssued_visit_cons] at hp
        simp [flushIssued] at hp
      | cmdFail e =>
        rw [flushClusterLoop, flushIssued_visit_cons, flushIssued_cmd_cons,
          flushIssued_done] at hp
        simpa using hp
      | cmdOk =>
        rw [flushClusterLoop, flushIssued_visit_cons, flushIssued_cmd_cons] at hp
        by_cases hrest : rest.isEmpty = true
        · rw [if_pos hrest, flushIssued_done] at hp
          simpa using hp
        · rw [if_neg hrest] at hp
          rcases List.mem_cons.mp hp with h1 | h2
          · exact h1
          · exact ih outs2 cfgH cfgP ov db p h2

/-- The command trace of the cluster flush traversal does not depend on the
`dbIndex` argument: it only shows up in the error-message text. -/
theorem flushClusterLoop_issued_db_invariant (masters : List Host) :
    ∀ (outs : List FlushOutcome) (cfgH : String) (cfgP : Int) (ov : Bool)
      (db db2 : Int),
      flushIssued (flushClusterLoop cfgH cfgP ov db masters outs) =
        flushIssued (flushClusterLoop cfgH cfgP ov db2 masters outs) := by
  induction masters with
  | nil =>
    intro outs cfgH cfgP ov db db2
    rfl
  | cons m rest ih =>
    intro outs cfgH cfgP ov db db2
    cases outs with
    | nil => rfl
    | cons o outs2 =>
      cases o with
      | connectFail e => rfl
      | cmdFail e =>
        rw [flushClusterLoop, flushClusterLoop, flushIssued_visit_cons,
          flushIssued_visit_cons, flushIssued_cmd_cons, flushIssued_cmd_cons,
          flushIssued_done, flushIssued_done]
      | cmdOk =>
        rw [flushClusterLoop, flushClusterLoop, flushIssued_visit_cons,
          flushIssued_visit_cons, flushIssued_cmd_cons, flushIssued_cmd_cons]
        by_cases hrest : rest.isEmpty = true
        · rw [if_pos hrest, if_pos hrest]
        · rw [if_neg hrest, if_neg hrest, ih outs2 cfgH cfgP ov db db2]

/-! ## C2 -/

/-- C2 counterexample: in `Normal` mode `flushDbKeys` does not fail with a
NotCluster error — it issues a `FLUSHDB` command against the requested db,
contradicting the claim's "neither issues any command to the server in that
case". -/
theorem C2_counterexample :
    FlushEv.cmdIssued ["FLUSHDB"] 2 ∈
      flushDbKeys Mode.Normal "h" 6379 true 2 (Except.error "x") [] "" := by
  decide

/-- C2 (amended): on a connection whose mode is not Cluster, `getClusterKeys`
fails with the NotCluster error without issuing any command, while
`flushDbKeys` performs no mode check at all: it issues a single `FLUSHDB`
against its `dbIndex` argument and reports the command's outcome through the
callback. -/
theorem C2_notcluster_guard (mode : Mode) (h : mode ≠ Mode.Cluster)
    (cfgH : String) (cfgP : Int) (ov : Bool) (db : Int)
    (slots : Except String RValue) (nouts : List NodeOutcome)
    (fouts : List FlushOutcome) (ce : String) :
    getClusterKeys mode cfgH cfgP ov slots nouts =
      Except.error "Connection is not in cluster mode" ∧
    flushDbKeys mode cfgH cfgP ov db slots fouts ce =
      [.cmdIssued ["FLUSHDB"] db,
       .flushDone (if ce ≠ ""
         then "Cannot flush db (" ++ toString db ++ "): " ++ ce
         else "")] := by
  constructor
  · unfold getClusterKeys
    rw [if_pos h]
  · unfold flushDbKeys
    rw [if_neg h]

/-- Witness for C2's amended theorem in Normal mode. -/
theorem C2_notcluster_witness :
    getClusterKeys Mode.Normal "h" 6379 true (Except.error "x") [] =
      Except.error "Connection is not in cluster mode" ∧
    flushDbKeys Mode.Normal "h" 6379 true 2 (Except.error "x") [] "boom" =
      [.cmdIssued ["FLUSHDB"] 2,
       .flushDone (if ("boom" : String) ≠ ""
         then "Cannot flush db (" ++ toString (2 : Int) ++ "): " ++ "boom"
         else "")] := by
  exact C2_notcluster_guard Mode.Normal (by decide) "h" 6379 true 2
    (Except.error "x") [] [] "boom"

/-! ## C9 -/

/-- C9 counterexample: when `getMasterNodes` returns an empty list (here
because `CLUSTER SLOTS` failed), `getClusterKeys` produces no events at all
— in particular not the exactly-one terminal callback the claim requires. -/
theorem C9_counterexample :
    getClusterKeys Mode.Cluster "h" 6379 true
      (Except.error "CLUSTER SLOTS failed") [] = Except.ok [] ∧
    countKeysDoneE (getClusterKeys Mode.Cluster "h" 6379 true
      (Except.error "CLUSTER SLOTS failed") []) ≠ 1 := by
  exact ⟨rfl, by decide⟩

/-- C9 (amended): when the master list is non-empty and the environment
supplies an outcome for every visited node, exactly one terminal callback
fires for `getClusterKeys` and for cluster `flushDbKeys`; the visited nodes
always form a prefix of the master list (each master visited at most once, in
slot order); on all-success runs every master is visited exactly once and the
single terminal callback carries the aggregated keys (resp. an empty error);
but when the master list is empty the traversal emits nothing — no terminal
callback fires. -/
theorem C9_exactly_one_terminal_callback :
    (∀ (masters : List Host) (outs : List NodeOutcome) (cfgH : String)
       (cfgP : Int) (ov : Bool) (acc : List String),
       masters ≠ [] → outs.length = masters.length →
       countKeysDone (clusterKeysLoop cfgH cfgP ov acc masters outs) = 1) ∧
    (∀ (masters : List Host) (outs : List FlushOutcome) (cfgH : String)
       (cfgP : Int) (ov : Bool) (db : Int),
       masters ≠ [] → outs.length = masters.length →
       countFlushDone (flushClusterLoop cfgH cfgP ov db masters outs) = 1) ∧
    (∀ (masters : List Host) (outs : List NodeOutcome) (cfgH : String)
       (cfgP : Int) (ov : Bool) (acc : List String),
       keysVisits (clusterKeysLoop cfgH cfgP ov acc masters outs) <+:
         masters.map (clusterTarget cfgH ov)) ∧
    (∀ (masters : List Host) (outs : List FlushOutcome) (cfgH : String)
       (cfgP : Int) (ov : Bool) (db : Int),
       flushVisits (flushClusterLoop cfgH cfgP ov db masters outs) <+:
         masters.map (clusterTarget cfgH ov)) ∧
    (∀ (masters : List Host) (kss : List (List String)) (cfgH : String)
       (cfgP : Int) (ov : Bool) (acc : List String),
       masters ≠ [] → kss.length = masters.length →
       clusterKeysLoop cfgH cfgP ov acc masters (kss.map NodeOutcome.scanOk) =
         masters.map (fun h => ClusterEv.visit (clusterTarget cfgH ov h)) ++
           [ClusterEv.keysDone (acc ++ kss.flatten) ""]) ∧
    (∀ (masters : List Host) (cfgH : String) (cfgP : Int) (ov : Bool)
       (db : Int),
       masters ≠ [] →
       flushClusterLoop cfgH cfgP ov db masters
           (List.replicate masters.length FlushOutcome.cmdOk) =
         (masters.map (fun h => [FlushEv.visit (clusterTarget cfgH ov h),
           FlushEv.cmdIssued ["FLUSHDB"] (-1)])).flatten ++
           [FlushEv.flushDone ""]) ∧
    (∀ (outs : List NodeOutcome) (cfgH : String) (cfgP : Int) (ov : Bool)
       (acc : List String), clusterKeysLoop cfgH cfgP ov acc [] outs = []) ∧
    (∀ (outs : List FlushOutcome) (cfgH : String) (cfgP : Int) (ov : Bool)
       (db : Int), flushClusterLoop cfgH cfgP ov db [] outs = []) := by
  refine ⟨?_, ?_, ?_, ?_, ?_, ?_, ?_, ?_⟩
  · intro masters outs cfgH cfgP ov acc h1 h2
    exact clusterKeysLoop_one_done masters outs cfgH cfgP ov acc h1 h2
  · intro masters outs cfgH cfgP ov db h1 h2
    exact flushClusterLoop_one_done masters outs cfgH cfgP ov db h1 h2
  · intro masters outs cfgH cfgP ov acc
    exact clusterKeysLoop_visits_prefix masters outs cfgH cfgP ov acc
  · intro masters outs cfgH cfgP ov db
    exact flushClusterLoop_visits_prefix masters outs cfgH cfgP ov db
  · intro masters kss cfgH cfgP ov acc h1 h2
    exact clusterKeysLoop_success masters kss cfgH cfgP ov acc h1 h2
  · intro masters cfgH cfgP ov db h1
    exact flushClusterLoop_success masters cfgH cfgP ov db h1
  · intro outs cfgH cfgP ov acc
    rfl
  · intro outs cfgH cfgP ov db
    rfl

/-- Witness for C9's amended theorem on a two-master cluster. -/
theorem C9_terminal_callback_witness :
    countKeysDone (clusterKeysLoop "h" 6379 true []
      [("10.0.0.1", 7000), ("10.0.0.2", 7001)]
      [.scanOk ["k1"], .scanFail "err"]) = 1 ∧
    countFlushDone (flushClusterLoop "h" 6379 true 0
      [("10.0.0.1", 7000), ("10.0.0.2", 7001)] [.cmdOk, .cmdOk]) = 1 ∧
    clusterKeysLoop "h" 6379 false []
      [("10.0.0.1", 7000), ("10.0.0.2", 7001)]
      ([["k1"], ["k2"]].map NodeOutcome.scanOk) =
      [("10.0.0.1", 7000), ("10.0.0.2", 7001)].map
        (fun h => ClusterEv.visit (clusterTarget "h" false h)) ++
        [ClusterEv.keysDone ([] ++ [["k1"], ["k2"]].flatten) ""] := by
  refine ⟨?_, ?_, ?_⟩
  · exact C9_exactly_one_terminal_callback.1 _ _ "h" 6379 true []
      (by decide) (by decide)
  · exact C9_exactly_one_terminal_callback.2.1 _ _ "h" 6379 true 0
      (by decide) (by decide)
  · exact C9_exactly_one_terminal_callback.2.2.2.2.1 _ [["k1"], ["k2"]]
      "h" 6379 false [] (by decide) (by decide)

/-! ## C10 -/

/-- C10: in cluster mode `flushDbKeys` ignores its `dbIndex` when issuing
the per-node command — every enqueued command is a bare `FLUSHDB` with db
index −1 (no SELECT), and the command trace is identical for any two
`dbIndex` values (the index only reaches the error-message text) — while
the non-cluster branch issues exactly one `FLUSHDB` carrying `dbIndex`. -/
theorem C10_cluster_flush_ignores_dbIndex :
    (∀ (cfgH : String) (cfgP : Int) (ov : Bool) (db : Int)
       (slots : Except String RValue) (outs : List FlushOutcome) (ce : String),
       ∀ p ∈ flushIssued (flushDbKeys Mode.Cluster cfgH cfgP ov db slots outs ce),
         p = (["FLUSHDB"], -1)) ∧
    (∀ (cfgH : String) (cfgP : Int) (ov : Bool) (db db2 : Int)
       (slots : Except String RValue) (outs : List FlushOutcome) (ce : String),
       flushIssued (flushDbKeys Mode.Cluster cfgH cfgP ov db slots outs ce) =
         flushIssued (flushDbKeys Mode.Cluster cfgH cfgP ov db2 slots outs ce)) ∧
    (∀ (mode : Mode) (cfgH : String) (cfgP : Int) (ov : Bool) (db : Int)
       (slots : Except String RValue) (outs : List FlushOutcome) (ce : String),
       mode ≠ Mode.Cluster →
       flushIssued (flushDbKeys mode cfgH cfgP ov db slots outs ce) =
         [(["FLUSHDB"], db)]) := by
  refine ⟨?_, ?_, ?_⟩
  · intro cfgH cfgP ov db slots outs ce p hp
    unfold flushDbKeys at hp
    rw [if_pos rfl] at hp
    exact flushClusterLoop_issued_mem _ outs cfgH cfgP ov db p hp
  · intro cfgH cfgP ov db db2 slots outs ce
    unfold flushDbKeys
    rw [if_pos rfl, if_pos rfl]
    exact flushClusterLoop_issued_db_invariant _ outs cfgH cfgP ov db db2
  · intro mode cfgH cfgP ov db slots outs ce h
    unfold flushDbKeys
    rw [if_neg h]
    by_cases hce : ce = "" <;> simp [flushIssued, hce]

/-- Witness for C10 on a one-master cluster and a Normal-mode call. -/
theorem C10_flush_db_witness :
    ((["FLUSHDB"], (5 : Int)) ∈
      flushIssued (flushDbKeys Mode.Cluster "h" 6379 true 5
        (Except.ok (.arr [.arr [.int 0, .int 100, .arr [.bulk "n1", .int 7000]]]))
        [.cmdOk] "") → (["FLUSHDB"], (5 : Int)) = (["FLUSHDB"], (-1 : Int))) ∧
    flushIssued (flushDbKeys Mode.Normal "h" 6379 true 5 (Except.error "x") [] "") =
      [(["FLUSHDB"], (5 : Int))] := by
  constructor
  · intro hmem
    exact C10_cluster_flush_ignores_dbIndex.1 "h" 6379 true 5
      (Except.ok (.arr [.arr [.int 0, .int 100, .arr [.bulk "n1", .int 7000]]]))
      [.cmdOk] "" _ hmem
  · exact C10_cluster_flush_ignores_dbIndex.2.2 Mode.Normal "h" 6379 true 5
      (Except.error "x") [] "" (by decide)

/-! ## C6 -/

/-- C6: in `auth()`, when the PING succeeds, the server reports sentinel
mode (and not cluster mode), and `SENTINEL masters` returns a first entry
with at least 6 fields, the Connection emits `reconnectTo(host, port)` with
host taken from field 3 and port from field 5 — substituting the configured
host when field 3 is `127.0.0.1` or `localhost` and no SSH tunnel is in use
— and `authOk` is not emitted on this path. -/
theorem C6_sentinel_reconnect (cfg : ConnCfg) (env : AuthEnv) (mode0 : Mode)
    (fields rest : List RValue)
    (hping : toBytesQ env.pingReply = "PONG")
    (hc : (ServerInfo.fromString env.infoText).clusterMode = false)
    (hs : (ServerInfo.fromString env.infoText).sentinelMode = true)
    (hm : env.mastersReply = .arr (RValue.arr fields :: rest))
    (h6 : 6 ≤ fields.length) :
    (auth cfg env mode0).1 =
      [.log "AUTH", .log "Sentinel detected. Requesting master node...",
       .reconnectTo
         (if !cfg.useSshTunnel &&
             ((fields.map toStringQ).getD 3 "" == "127.0.0.1" ||
              (fields.map toStringQ).getD 3 "" == "localhost")
          then cfg.host else (fields.map toStringQ).getD 3 "")
         (toIntQ ((fields.map toStringQ).getD 5 ""))] ∧
    AuthEv.authOk ∉ (auth cfg env mode0).1 := by
  have h6' : ¬ (fields.length < 6) := by omega
  have hgoal : (auth cfg env mode0).1 =
      [.log "AUTH", .log "Sentinel detected. Requesting master node...",
       .reconnectTo
         (if !cfg.useSshTunnel &&
             ((fields.map toStringQ).getD 3 "" == "127.0.0.1" ||
              (fields.map toStringQ).getD 3 "" == "localhost")
          then cfg.host else (fields.map toStringQ).getD 3 "")
         (toIntQ ((fields.map toStringQ).getD 5 ""))] := by
    unfold auth
    rw [if_neg (by simp [hping])]
    simp only [hc, hs, hm, Bool.false_eq_true, if_false, if_true,
      RValue.isArray, Bool.not_true, toListQ, toStringListQ]
    rw [if_neg (by simp : ¬ ((RValue.arr fields :: rest).length = 0))]
    simp only [List.headD_cons, List.length_map]
    rw [if_neg h6']
  refine ⟨hgoal, ?_⟩
  rw [hgoal]
  simp

/-- Witness for C6 on the spec's S3 scenario (loopback master, no SSH
tunnel: the configured host is substituted). -/
theorem C6_sentinel_witness :
    (auth ⟨"db.example.com", 6379, false, "", false, true⟩
      ⟨.status "PONG", "redis_mode:sentinel",
       .arr [.arr [.bulk "name", .bulk "mymaster", .bulk "ip",
         .bulk "127.0.0.1", .bulk "port", .bulk "6380"]]⟩ Mode.Normal).1 =
      [.log "AUTH", .log "Sentinel detected. Requesting master node...",
       .reconnectTo
         (if !(false : Bool) &&
             (([RValue.bulk "name", .bulk "mymaster", .bulk "ip",
                .bulk "127.0.0.1", .bulk "port", .bulk "6380"].map toStringQ).getD 3 ""
                == "127.0.0.1" ||
              (([RValue.bulk "name", .bulk "mymaster", .bulk "ip",
                .bulk "127.0.0.1", .bulk "port", .bulk "6380"].map toStringQ).getD 3 ""
                == "localhost"))
          then "db.example.com"
          else ([RValue.bulk "name", .bulk "mymaster", .bulk "ip",
            .bulk "127.0.0.1", .bulk "port", .bulk "6380"].map toStringQ).getD 3 "")
         (toIntQ (([RValue.bulk "name", .bulk "mymaster", .bulk "ip",
           .bulk "127.0.0.1", .bulk "port", .bulk "6380"].map toStringQ).getD 5 ""))] ∧
    AuthEv.authOk ∉ (auth ⟨"db.example.com", 6379, false, "", false, true⟩
      ⟨.status "PONG", "redis_mode:sentinel",
       .arr [.arr [.bulk "name", .bulk "mymaster", .bulk "ip",
         .bulk "127.0.0.1", .bulk "port", .bulk "6380"]]⟩ Mode.Normal).1 := by
  exact C6_sentinel_reconnect ⟨"db.example.com", 6379, false, "", false, true⟩
    ⟨.status "PONG", "redis_mode:sentinel",
     .arr [.arr [.bulk "name", .bulk "mymaster", .bulk "ip",
       .bulk "127.0.0.1", .bulk "port", .bulk "6380"]]⟩ Mode.Normal
    [.bulk "name", .bulk "mymaster", .bulk "ip", .bulk "127.0.0.1",
     .bulk "port", .bulk "6380"] []
    rfl (by decide) (by decide) rfl (by decide)

/-! ## C8 -/

/-- C8: a valid command issued on a not-yet-connected Connection with
`autoConnect=true` returns a future that completes with the command's
response exactly when the triggered connect-and-auth sequence succeeds
(first post-connect signal is `authOk`); when it fails (first signal is
`error`), the future is cancelled. -/
theorem C8_autoconnect_future (outcome : ConnectOutcome) (resp : RValue) :
    (runCommandF true false true outcome resp =
        Except.ok (FutureR.completed resp) ↔
      outcome = ConnectOutcome.authOkFirst) ∧
    (runCommandF true false true outcome resp = Except.ok FutureR.cancelled ↔
      outcome ≠ ConnectOutcome.authOkFirst) := by
  cases outcome with
  | authOkFirst =>
    constructor <;> simp [runCommandF, runCommandConnectedF]
  | errorFirst m =>
    constructor <;> simp [runCommandF, runCommandConnectedF]

/-! ## Lemmas about the keyspace map (C7) -/

theorem lookupK_mapInsert_self (m : List (Nat × Nat)) (k v : Nat) :
    lookupK (mapInsert k v m) k = some v := by
  induction m with
  | nil => simp [mapInsert, lookupK]
  | cons p rest ih =>
    obtain ⟨k2, v2⟩ := p
    unfold mapInsert
    by_cases h1 : k < k2
    · rw [if_pos h1]
      simp [lookupK]
    · rw [if_neg h1]
      by_cases h2 : k = k2
      · rw [if_pos h2]
        simp [lookupK]
      · rw [if_neg h2]
        simp [lookupK, h2, ih]

theorem lookupK_mapInsert_ne (m : List (Nat × Nat)) (k v j : Nat) (hj : j ≠ k) :
    lookupK (mapInsert k v m) j = lookupK m j := by
  induction m with
  | nil => simp [mapInsert, lookupK, hj]
  | cons p rest ih =>
    obtain ⟨k2, v2⟩ := p
    unfold mapInsert
    by_cases h1 : k < k2
    · rw [if_pos h1]
      simp [lookupK, hj]
    · rw [if_neg h1]
      by_cases h2 : k = k2
      · rw [if_pos h2]
        subst h2
        simp [lookupK, hj]
      · rw [if_neg h2]
        by_cases h3 : j = k2 <;> simp [lookupK, h3, ih]

theorem mem_keysOf_mapInsert (m : List (Nat × Nat)) (k v j : Nat) :
    j ∈ keysOf (mapInsert k v m) ↔ j = k ∨ j ∈ keysOf m := by
  induction m with
  | nil => simp [mapInsert, keysOf]
  | cons p rest ih =>
    obtain ⟨k2, v2⟩ := p
    unfold mapInsert
    by_cases h1 : k < k2
    · rw [if_pos h1]
      simp only [keysOf, List.map_cons, List.mem_cons]
    · rw [if_neg h1]
      by_cases h2 : k = k2
      · rw [if_pos h2]
        subst h2
        simp [keysOf]
      · rw [if_neg h2]
        simp only [keysOf, List.map_cons, List.mem_cons] at *
        rw [ih]
        tauto

theorem sorted_mapInsert (m : List (Nat × Nat)) (k v : Nat)
    (hs : List.Sorted (· < ·) (keysOf m)) :
    List.Sorted (· < ·) (keysOf (mapInsert k v m)) := by
  induction m with
  | nil => simp [mapInsert, keysOf]
  | cons p rest ih =>
    obtain ⟨k2, v2⟩ := p
    rw [show keysOf ((k2, v2) :: rest) = k2 :: keysOf rest from rfl,
      List.sorted_cons] at hs
    obtain ⟨hall, hrest⟩ := hs
    unfold mapInsert
    by_cases h1 : k < k2
    · rw [if_pos h1]
      rw [show keysOf ((k, v) :: (k2, v2) :: rest) = k :: k2 :: keysOf rest from rfl,
        List.sorted_cons, List.sorted_cons]
      refine ⟨?_, hall, hrest⟩
      intro b hb
      rcases List.mem_cons.mp hb with h | h
      · omega
      · have := hall b h
        omega
    · rw [if_neg h1]
      by_cases h2 : k = k2
      · rw [if_pos h2]
        subst h2
        rw [show keysOf ((k, v) :: rest) = k :: keysOf rest from rfl,
          List.sorted_cons]
        exact ⟨hall, hrest⟩
      · rw [if_neg h2]
        rw [show keysOf ((k2, v2) :: mapInsert k v rest) =
            k2 :: keysOf (mapInsert k v rest) from rfl, List.sorted_cons]
        refine ⟨?_, ih hrest⟩
        intro b hb
        rcases (mem_keysOf_mapInsert rest k v b).mp hb with h | h
        · omega
        · exact hall b h

theorem lookupK_isSome_iff (m : List (Nat × Nat)) (j : Nat) :
    (lookupK m j).isSome = true ↔ j ∈ keysOf m := by
  induction m with
  | nil => simp [lookupK, keysOf]
  | cons p rest ih =>
    obtain ⟨k2, v2⟩ := p
    by_cases h : j = k2 <;> simp [lookupK, keysOf, h, ih]

theorem foldIns_cons (acc : List (Nat × Nat)) (p : Nat × Nat)
    (ms : List (Nat × Nat)) :
    foldIns acc (p :: ms) = foldIns (mapInsert p.1 p.2 acc) ms := rfl

theorem sorted_foldIns (ms : List (Nat × Nat)) :
    ∀ acc, List.Sorted (· < ·) (keysOf acc) →
      List.Sorted (· < ·) (keysOf (foldIns acc ms)) := by
  induction ms with
  | nil =>
    intro acc h
    exact h
  | cons p rest ih =>
    intro acc h
    rw [foldIns_cons]
    exact ih _ (sorted_mapInsert acc p.1 p.2 h)

theorem lookupK_foldIns (ms : List (Nat × Nat)) :
    ∀ (acc : List (Nat × Nat)) (j : Nat),
      lookupK (foldIns acc ms) j =
        match lastValOf ms j with
        | some v => some v
        | none => lookupK acc j := by
  induction ms with
  | nil =>
    intro acc j
    simp [foldIns, lastValOf]
  | cons p rest ih =>
    intro acc j
    rw [foldIns_cons, ih _ j]
    cases hlv : lastValOf rest j with
    | some v =>
      rw [show lastValOf (p :: rest) j = some v from by
        unfold lastValOf; rw [hlv]]
    | none =>
      rw [show lastValOf (p :: rest) j =
          (if p.1 = j then some p.2 else none) from by
        unfold lastValOf; rw [hlv]]
      by_cases hj : p.1 = j
      · subst hj
        simp [lookupK_mapInsert_self]
      · simp [hj, lookupK_mapInsert_ne _ _ _ _ (fun h => hj h.symm)]

theorem lastValOf_isSome_iff (ms : List (Nat × Nat)) (j : Nat) :
    (lastValOf ms j).isSome = true ↔ j ∈ ms.map Prod.fst := by
  induction ms with
  | nil => simp [lastValOf]
  | cons p rest ih =>
    unfold lastValOf
    cases hlv : lastValOf rest j with
    | some v =>
      have hmem : j ∈ rest.map Prod.fst := ih.mp (by rw [hlv]; rfl)
      simp [hmem]
    | none =>
      have hno : ¬ j ∈ rest.map Prod.fst := by
        intro hm
        have h2 := ih.mpr hm
        rw [hlv] at h2
        simp at h2
      by_cases hj : p.1 = j
      · simp [hj]
      · simp [hj, hno, Ne.symm hj]

theorem mem_keysOf_foldIns (ms acc : List (Nat × Nat)) (j : Nat) :
    j ∈ keysOf (foldIns acc ms) ↔ j ∈ ms.map Prod.fst ∨ j ∈ keysOf acc := by
  rw [← lookupK_isSome_iff, lookupK_foldIns, ← lookupK_isSome_iff]
  cases hlv : lastValOf ms j with
  | some v =>
    have hm : j ∈ ms.map Prod.fst := (lastValOf_isSome_iff ms j).mp (by rw [hlv]; rfl)
    simp [hm]
  | none =>
    have hno : ¬ j ∈ ms.map Prod.fst := by
      intro hm
      have h2 := (lastValOf_isSome_iff ms j).mpr hm
      rw [hlv] at h2
      simp at h2
    simp [hno]

theorem lookupK_densifyStep (acc : List (Nat × Nat)) (i j : Nat) :
    lookupK (densifyStep acc i) j =
      if j = i then some ((lookupK acc i).getD 0) else lookupK acc j := by
  unfold densifyStep
  by_cases hc : containsK acc i = true
  · rw [if_pos hc]
    by_cases hj : j = i
    · subst hj
      unfold containsK at hc
      cases ho : lookupK acc j with
      | none =>
        rw [ho] at hc
        simp at hc
      | some v => simp [ho]
    · simp [hj]
  · rw [if_neg hc]
    by_cases hj : j = i
    · subst hj
      unfold containsK at hc
      cases ho : lookupK acc j with
      | some v =>
        rw [ho] at hc
        simp at hc
      | none => simp [ho, lookupK_mapInsert_self]
    · simp [hj, lookupK_mapInsert_ne _ _ _ _ hj]

theorem sorted_densifyStep (acc : List (Nat × Nat)) (i : Nat)
    (hs : List.Sorted (· < ·) (keysOf acc)) :
    List.Sorted (· < ·) (keysOf (densifyStep acc i)) := by
  unfold densifyStep
  by_cases hc : containsK acc i = true
  · rw [if_pos hc]
    exact hs
  · rw [if_neg hc]
    exact sorted_mapInsert acc i 0 hs

theorem lookupK_fillFold (L : List Nat) :
    ∀ (acc : List (Nat × Nat)) (j : Nat),
      lookupK (L.foldl densifyStep acc) j =
        if j ∈ L then some ((lookupK acc j).getD 0) else lookupK acc j := by
  induction L with
  | nil =>
    intro acc j
    simp
  | cons i L ih =>
    intro acc j
    rw [List.foldl_cons, ih, lookupK_densifyStep]
    by_cases hj : j = i
    · subst hj
      by_cases hL : j ∈ L <;> simp [hL]
    · by_cases hL : j ∈ L <;> simp [hj, hL]

theorem sorted_fillFold (L : List Nat) :
    ∀ acc, List.Sorted (· < ·) (keysOf acc) →
      List.Sorted (· < ·) (keysOf (L.foldl densifyStep acc)) := by
  induction L with
  | nil =>
    intro acc h
    exact h
  | cons i L ih =>
    intro acc h
    rw [List.foldl_cons]
    exact ih _ (sorted_densifyStep acc i h)

theorem lastKeyD_cons_cons (p q : Nat × Nat) (rest : List (Nat × Nat)) :
    lastKeyD (p :: q :: rest) = lastKeyD (q :: rest) := by
  unfold lastKeyD
  rw [List.getLast?_cons_cons]

theorem lastKeyD_mem (m : List (Nat × Nat)) (hm : m ≠ []) :
    lastKeyD m ∈ keysOf m := by
  induction m with
  | nil => exact absurd rfl hm
  | cons p rest ih =>
    cases rest with
    | nil => simp [lastKeyD, keysOf]
    | cons q rest2 =>
      rw [lastKeyD_cons_cons]
      exact List.mem_cons_of_mem _ (ih (by simp))

theorem le_lastKeyD_of_mem (m : List (Nat × Nat)) :
    List.Sorted (· < ·) (keysOf m) →
    ∀ j ∈ keysOf m, j ≤ lastKeyD m := by
  induction m with
  | nil =>
    intro _ j hj
    simp [keysOf] at hj
  | cons p rest ih =>
    intro hs j hj
    rw [show keysOf (p :: rest) = p.1 :: keysOf rest from rfl,
      List.sorted_cons] at hs
    obtain ⟨hall, hrest⟩ := hs
    rw [show keysOf (p :: rest) = p.1 :: keysOf rest from rfl] at hj
    cases rest with
    | nil =>
      simp [keysOf] at hj
      simp [lastKeyD, hj]
    | cons q rest2 =>
      rw [lastKeyD_cons_cons]
      rcases List.mem_cons.mp hj with h | h
      · rw [h]
        have h1 : p.1 < q.1 := hall q.1 (by simp [keysOf])
        have h2 : q.1 ≤ lastKeyD (q :: rest2) :=
          ih hrest q.1 (by simp [keysOf])
        omega
      · exact ih hrest j h

theorem msMaxKey_le (ms : List (Nat × Nat)) :
    ∀ (mx : Nat), msMaxKey ms = some mx → ∀ j ∈ ms.map Prod.fst, j ≤ mx := by
  induction ms with
  | nil =>
    intro mx _ j hj
    simp at hj
  | cons p rest ih =>
    intro mx hmx j hj
    unfold msMaxKey at hmx
    rw [List.map_cons] at hj
    rcases List.mem_cons.mp hj with h | h
    · cases hr : msMaxKey rest with
      | none =>
        rw [hr] at hmx
        simp at hmx
        omega
      | some m2 =>
        rw [hr] at hmx
        simp at hmx
        omega
    · cases hr : msMaxKey rest with
      | none =>
        have hnil : rest = [] := by
          cases rest with
          | nil => rfl
          | cons q r2 =>
            exfalso
            unfold msMaxKey at hr
            cases h2 : msMaxKey r2 with
            | none =>
              rw [h2] at hr
              simp at hr
            | some m3 =>
              rw [h2] at hr
              simp at hr
        subst hnil
        simp at h
      | some m2 =>
        rw [hr] at hmx
        simp at hmx
        have := ih m2 hr j h
        omega

theorem msMaxKey_mem (ms : List (Nat × Nat)) :
    ∀ (mx : Nat), msMaxKey ms = some mx → mx ∈ ms.map Prod.fst := by
  induction ms with
  | nil =>
    intro mx hmx
    simp [msMaxKey] at hmx
  | cons p rest ih =>
    intro mx hmx
    unfold msMaxKey at hmx
    rw [List.map_cons]
    cases hr : msMaxKey rest with
    | none =>
      rw [hr] at hmx
      simp at hmx
      exact List.mem_cons.mpr (Or.inl hmx.symm)
    | some m2 =>
      rw [hr] at hmx
      simp at hmx
      by_cases hcmp : m2 ≤ p.1
      · have hp : mx = p.1 := by omega
        subst hp
        exact List.mem_cons.mpr (Or.inl rfl)
      · have hm : mx = m2 := by omega
        subst hm
        exact List.mem_cons_of_mem _ (ih mx hr)

theorem msMaxKey_eq_none (ms : List (Nat × Nat)) :
    msMaxKey ms = none ↔ ms = [] := by
  cases ms with
  | nil => simp [msMaxKey]
  | cons p rest =>
    unfold msMaxKey
    cases msMaxKey rest <;> simp

/-- A strictly sorted list of naturals whose members are exactly the
naturals below `n` is `List.range n`. -/
theorem sorted_mem_eq_range (l : List Nat) (n : Nat)
    (hs : List.Sorted (· < ·) l) (hm : ∀ j, j ∈ l ↔ j < n) :
    l = List.range n := by
  haveI : IsAntisymm Nat (· < ·) :=
    ⟨fun a b h1 h2 => absurd h2 (Nat.lt_asymm h1)⟩
  refine List.eq_of_perm_of_sorted ?_ hs (List.sorted_lt_range n)
  refine (List.perm_ext_iff_of_nodup hs.nodup (List.nodup_range n)).mpr ?_
  intro a
  rw [hm a, List.mem_range]

theorem lookupK_of_mem_nodup (m : List (Nat × Nat)) :
    (keysOf m).Nodup → ∀ p ∈ m, lookupK m p.1 = some p.2 := by
  induction m with
  | nil =>
    intro _ p hp
    simp at hp
  | cons q rest ih =>
    intro hnd p hp
    rw [show keysOf (q :: rest) = q.1 :: keysOf rest from rfl] at hnd
    obtain ⟨hq, hnd2⟩ := List.nodup_cons.mp hnd
    rcases List.mem_cons.mp hp with h | h
    · subst h
      simp [lookupK]
    · have hne : p.1 ≠ q.1 := by
        intro he
        exact hq (he ▸ List.mem_map_of_mem Prod.fst h)
      simp [lookupK, hne, ih hnd2 p h]

/-- The core of C7's dense-fill invariant, for the non-cluster non-sentinel
path: building the keyspace map from the observed matches and running the
densification loop yields a map that is densely filled as the claim
states. -/
theorem denselyFilledB_densify (ms : List (Nat × Nat)) :
    denselyFilledB ms (densify (foldIns [] ms)) = true := by
  cases hmx : msMaxKey ms with
  | none =>
    have hnil : ms = [] := (msMaxKey_eq_none ms).mp hmx
    subst hnil
    rfl
  | some mx =>
    have hsorted : List.Sorted (· < ·) (keysOf (foldIns [] ms)) :=
      sorted_foldIns ms [] (by simp [keysOf])
    have hlook : ∀ j, lookupK (foldIns [] ms) j = lastValOf ms j := by
      intro j
      rw [lookupK_foldIns]
      cases lastValOf ms j <;> simp [lookupK]
    have hmem : ∀ j, j ∈ keysOf (foldIns [] ms) ↔ j ∈ ms.map Prod.fst := by
      intro j
      rw [mem_keysOf_foldIns]
      simp [keysOf]
    have hmne : foldIns [] ms ≠ [] := by
      have h1 : mx ∈ keysOf (foldIns [] ms) :=
        (hmem mx).mpr (msMaxKey_mem ms mx hmx)
      intro h
      rw [h] at h1
      simp [keysOf] at h1
    have hlast : lastKeyD (foldIns [] ms) = mx := by
      apply Nat.le_antisymm
      · exact msMaxKey_le ms mx hmx _
          ((hmem _).mp (lastKeyD_mem (foldIns [] ms) hmne))
      · exact le_lastKeyD_of_mem (foldIns [] ms) hsorted mx
          ((hmem mx).mpr (msMaxKey_mem ms mx hmx))
    have hdl : densify (foldIns [] ms) =
        (List.range mx).foldl densifyStep (foldIns [] ms) := by
      unfold densify
      rw [if_neg (by simp [List.isEmpty_iff, hmne]), hlast]
    have hlookd : ∀ j, lookupK (densify (foldIns [] ms)) j =
        if j ∈ List.range mx then some ((lookupK (foldIns [] ms) j).getD 0)
        else lookupK (foldIns [] ms) j := by
      intro j
      rw [hdl]
      exact lookupK_fillFold (List.range mx) (foldIns [] ms) j
    have hsortedd : List.Sorted (· < ·) (keysOf (densify (foldIns [] ms))) := by
      rw [hdl]
      exact sorted_fillFold _ _ hsorted
    have hmemd : ∀ j, j ∈ keysOf (densify (foldIns [] ms)) ↔ j < mx + 1 := by
      intro j
      rw [← lookupK_isSome_iff, hlookd j]
      constructor
      · intro hj
        by_cases hr : j ∈ List.range mx
        · rw [List.mem_range] at hr
          omega
        · rw [if_neg hr] at hj
          have h1 : j ∈ keysOf (foldIns [] ms) :=
            (lookupK_isSome_iff _ j).mp hj
          have h2 := msMaxKey_le ms mx hmx j ((hmem j).mp h1)
          omega
      · intro hj
        by_cases hr : j ∈ List.range mx
        · rw [if_pos hr]
          rfl
        · rw [if_neg hr]
          rw [List.mem_range] at hr
          have hjmx : j = mx := by omega
          subst hjmx
          exact (lookupK_isSome_iff _ j).mpr
            ((hmem j).mpr (msMaxKey_mem ms j hmx))
    have hkeys : keysOf (densify (foldIns [] ms)) = List.range (mx + 1) :=
      sorted_mem_eq_range _ _ hsortedd (fun j => hmemd j)
    have hvals : ∀ p ∈ densify (foldIns [] ms), p.2 = lastReported ms p.1 := by
      intro p hp
      have hl : lookupK (densify (foldIns [] ms)) p.1 = some p.2 :=
        lookupK_of_mem_nodup _ hsortedd.nodup p hp
      rw [hlookd, hlook] at hl
      unfold lastReported
      by_cases hr : p.1 ∈ List.range mx
      · rw [if_pos hr] at hl
        exact (Option.some.injEq .. ▸ hl :
          ((lastValOf ms p.1).getD 0) = p.2).symm
      · rw [if_neg hr] at hl
        rw [hl]
        rfl
    unfold denselyFilledB
    rw [hmx, Bool.and_eq_true]
    constructor
    · rw [hkeys]
      simp
    · rw [List.all_eq_true]
      intro p hp
      exact beq_iff_eq.mpr (hvals p hp)

theorem fromString_clusterMode (s : String) :
    (ServerInfo.fromString s).clusterMode =
      (findModeCap s.data == some "cluster") := by
  unfold ServerInfo.fromString
  by_cases h1 : (findModeCap s.data == some "cluster") = true <;>
    by_cases h2 : (findModeCap s.data == some "sentinel") = true <;>
      simp [h1, h2]

theorem fromString_sentinelMode (s : String) :
    (ServerInfo.fromString s).sentinelMode =
      (findModeCap s.data == some "sentinel") := by
  unfold ServerInfo.fromString
  by_cases h1 : (findModeCap s.data == some "cluster") = true <;>
    by_cases h2 : (findModeCap s.data == some "sentinel") = true <;>
      simp [h1, h2]

theorem fromString_databases (s : String) :
    (ServerInfo.fromString s).databases =
      if (findModeCap s.data == some "cluster") = true then [(0, 0)]
      else if (findModeCap s.data == some "sentinel") = true then []
      else densify (foldIns [] (keyspaceMatches s)) := by
  unfold ServerInfo.fromString
  by_cases h1 : (findModeCap s.data == some "cluster") = true <;>
    by_cases h2 : (findModeCap s.data == some "sentinel") = true <;>
      simp [h1, h2]

/-! ## C7 -/

/-- C7 counterexample: on an INFO text reporting sentinel mode together with
a keyspace line `db3:keys=5`, the code returns an empty `databases` map (the
sentinel branch skips keyspace parsing entirely), while the claim requires
it to be densely filled up to the observed index 3. -/
theorem C7_counterexample :
    databasesPerClaimB
        (ServerInfo.fromString "redis_mode:sentinel\r\ndb3:keys=5,expires=0")
        (keyspaceMatches "redis_mode:sentinel\r\ndb3:keys=5,expires=0") = false ∧
    (ServerInfo.fromString
        "redis_mode:sentinel\r\ndb3:keys=5,expires=0").sentinelMode = true ∧
    (ServerInfo.fromString
        "redis_mode:sentinel\r\ndb3:keys=5,expires=0").databases = [] ∧
    keyspaceMatches "redis_mode:sentinel\r\ndb3:keys=5,expires=0" = [(3, 5)] := by
  refine ⟨by decide, by decide, by decide, by decide⟩

/-- C7 (amended): for every input string, if `clusterMode` is true then
`databases` contains exactly the entry `{0 → 0}`; otherwise, if
`sentinelMode` is true then `databases` is empty regardless of any keyspace
lines in the INFO text; otherwise `databases` is densely filled for every
index from 0 up to the largest observed db index, with value 0 for indices
the INFO text did not report. -/
theorem C7_databases_invariant (s : String) :
    ((ServerInfo.fromString s).clusterMode = true →
      (ServerInfo.fromString s).databases = [(0, 0)]) ∧
    ((ServerInfo.fromString s).clusterMode = false →
      (ServerInfo.fromString s).sentinelMode = true →
      (ServerInfo.fromString s).databases = []) ∧
    ((ServerInfo.fromString s).clusterMode = false →
      (ServerInfo.fromString s).sentinelMode = false →
      denselyFilledB (keyspaceMatches s) (ServerInfo.fromString s).databases = true) := by
  refine ⟨?_, ?_, ?_⟩
  · intro h1
    rw [fromString_clusterMode] at h1
    rw [fromString_databases, if_pos h1]
  · intro h1 h2
    rw [fromString_clusterMode] at h1
    rw [fromString_sentinelMode] at h2
    rw [fromString_databases, if_neg (by simp [h1]), if_pos h2]
  · intro h1 h2
    rw [fromString_clusterMode] at h1
    rw [fromString_sentinelMode] at h2
    rw [fromString_databases, if_neg (by simp [h1]), if_neg (by simp [h2])]
    exact denselyFilledB_densify (keyspaceMatches s)

/-- Witness for C7's amended theorem on the spec's S1 INFO text and a
cluster INFO text. -/
theorem C7_databases_witness :
    (ServerInfo.fromString "redis_mode:cluster\r\ndb3:keys=5,expires=0").databases =
      [(0, 0)] ∧
    denselyFilledB
      (keyspaceMatches
        "# server\r\nredis_mode:standalone\r\n# keyspace\r\ndb0:keys=3,expires=0\r\ndb2:keys=1,expires=0")
      (ServerInfo.fromString
        "# server\r\nredis_mode:standalone\r\n# keyspace\r\ndb0:keys=3,expires=0\r\ndb2:keys=1,expires=0").databases = true := by
  constructor
  · exact (C7_databases_invariant
      "redis_mode:cluster\r\ndb3:keys=5,expires=0").1 (by decide)
  · exact (C7_databases_invariant
      "# server\r\nredis_mode:standalone\r\n# keyspace\r\ndb0:keys=3,expires=0\r\ndb2:keys=1,expires=0").2.2
      (by decide) (by decide)

end RedisClient
